import Mathlib

/-!
Verification of the menu widget core of `src/crawl-ref/source/menu.cc`.

The development shallowly embeds the data model and the operations of the
menu core.  Pure functions of the source are translated to Lean functions;
the mutable `Menu`/`UIMenu` state is threaded explicitly through a
`MenuState` record.  Machine integers are modelled as unbounded `Int`
(the quantities involved — pixel offsets, entry counts, key codes — stay
far away from 32-bit boundaries on the inputs considered here); C++
truncating `%` and `/` on `int` are rendered as `Int.tmod` / `Int.tdiv`.

External collaborators (the widget framework's scroller, the font
measurement engine, key-code tables) are represented by explicit
parameters or oracle fields, as the specification prescribes treating
them as interfaces.
-/

/-- Entry level, as in the `MEL_*` enum used by menu.cc (`MEL_NONE`,
`MEL_TITLE`, `MEL_SUBTITLE`, `MEL_ITEM`). -/
inductive MenuLevel
  | nolevel
  | title
  | subtitle
  | item
deriving DecidableEq, Repr

/-- The data unit of the menu: the fields of `MenuEntry` (declared in menu.h,
used throughout menu.cc).  `onSelect` records the presence of an `on_select`
action; `onSelectResult` is the boolean the action reports when invoked
(callback bodies are external to the core, spec §9); `filterMatch` records
whether the entry's filter text matches the menu's `select_filter` patterns
(`text_pattern` matching is an external capability). -/
structure MenuEntry where
  level : MenuLevel
  hotkeys : List Int
  quantity : Int
  selected_qty : Int
  onSelect : Bool
  onSelectResult : Bool
  filterMatch : Bool
deriving DecidableEq, Repr

instance : Inhabited MenuEntry := ⟨⟨MenuLevel.nolevel, [], 0, 0, false, false, false⟩⟩

/-- `MenuEntry::selected` (menu.cc:1881-1884):
`selected_qty > 0 && (quantity || on_select)`. -/
def MenuEntry.selected (e : MenuEntry) : Bool :=
  decide (0 < e.selected_qty ∧ (e.quantity ≠ 0 ∨ e.onSelect = true))

/-- `MenuEntry::select` (menu.cc:1888-1898). -/
def MenuEntry.select (e : MenuEntry) (qty : Int) : MenuEntry :=
  if e.onSelect = true ∧ e.quantity = 0 then { e with selected_qty := 1 }
  else if qty = -2 then { e with selected_qty := e.quantity }
  else if e.selected = true then { e with selected_qty := 0 }
  else if e.quantity ≠ 0 then
    { e with selected_qty := if qty = -1 then e.quantity else qty }
  else e

/-- The new `selected_qty` that `select` assigns, following the amended
case description (`none` = the entry is left unchanged): an action-bearing
entry with `quantity == 0` gets 1; `qty == -2` selects the full quantity;
an already-selected entry toggles off; an entry with `quantity == 0` and no
action is left untouched; otherwise the quantity becomes `quantity` when
`qty == -1`, else `qty`. -/
def selectCaseResult (e : MenuEntry) (qty : Int) : Option Int :=
  if e.onSelect = true ∧ e.quantity = 0 then some 1
  else if qty = -2 then some e.quantity
  else if e.selected = true then some 0
  else if e.quantity = 0 then none
  else some (if qty = -1 then e.quantity else qty)

theorem select_eq_caseResult (e : MenuEntry) (qty : Int) :
    e.select qty = (match selectCaseResult e qty with
                    | none => e
                    | some v => { e with selected_qty := v }) := by
  unfold MenuEntry.select selectCaseResult
  split_ifs <;> simp_all

/-- C2 (counterexample): an entry with no action and `quantity == 0` that is
not selected falls to the claim's final "otherwise" case, where the claim
predicts `selected_qty = qty`; the code leaves the entry unchanged because
the final assignment is guarded by `quantity != 0`. -/
theorem menu_entry_select_claim_counterexample :
    let e : MenuEntry := ⟨MenuLevel.item, [], 0, 0, false, false, false⟩
    ¬ (e.onSelect = true ∧ e.quantity = 0) ∧ (5 : Int) ≠ -2 ∧
      e.selected = false ∧ (5 : Int) ≠ -1 ∧ (e.select 5).selected_qty ≠ 5 := by
  decide

/-- C2 (amended): `MenuEntry::select(qty)` follows exactly the amended cases,
in order: action present and `quantity == 0` gives `selected_qty = 1`
unconditionally; else `qty == -2` gives `selected_qty = quantity`; else an
already-selected entry toggles to 0; else an entry with `quantity == 0` is
left unchanged; otherwise `selected_qty` becomes `quantity` when `qty == -1`
and `qty` otherwise.  The operation mutates only the `selected_qty` field of
that entry, and, lifted to the entry list, only the entry at the selected
position. -/
theorem menu_entry_select_cases (e : MenuEntry) (qty : Int) :
    ((e.onSelect = true ∧ e.quantity = 0) → e.select qty = { e with selected_qty := 1 }) ∧
    (¬ (e.onSelect = true ∧ e.quantity = 0) → qty = -2 →
        e.select qty = { e with selected_qty := e.quantity }) ∧
    (¬ (e.onSelect = true ∧ e.quantity = 0) → qty ≠ -2 → e.selected = true →
        e.select qty = { e with selected_qty := 0 }) ∧
    (¬ (e.onSelect = true ∧ e.quantity = 0) → qty ≠ -2 → e.selected = false →
        e.quantity = 0 → e.select qty = e) ∧
    (¬ (e.onSelect = true ∧ e.quantity = 0) → qty ≠ -2 → e.selected = false →
        e.quantity ≠ 0 →
        e.select qty = { e with selected_qty := if qty = -1 then e.quantity else qty }) ∧
    ((e.select qty).level = e.level ∧ (e.select qty).hotkeys = e.hotkeys ∧
      (e.select qty).quantity = e.quantity ∧ (e.select qty).onSelect = e.onSelect) ∧
    (∀ (l : List MenuEntry) (i j : Nat), j ≠ i →
        (l.set i ((l.getD i default).select qty)).getD j default = l.getD j default) := by
  refine ⟨?_, ?_, ?_, ?_, ?_, ?_, ?_⟩
  · intro h; simp [MenuEntry.select, h]
  · intro h hq; simp [MenuEntry.select, h, hq]
  · intro h hq hs; simp [MenuEntry.select, h, hq, hs]
  · intro h hq hs h0
    rw [MenuEntry.select, if_neg h, if_neg hq]
    simp [hs, h0]
  · intro h hq hs h0; simp [MenuEntry.select, h, hq, hs, h0]
  · unfold MenuEntry.select; split_ifs <;> simp
  · intro l i j hji
    unfold List.getD
    rw [List.get?_set_ne _ _ (Ne.symm hji)]

theorem menu_entry_select_cases_witness :
    let e : MenuEntry := ⟨MenuLevel.item, [97], 3, 0, false, false, false⟩
    e.select 2 = { e with selected_qty := 2 } := by
  have h := menu_entry_select_cases ⟨MenuLevel.item, [97], 3, 0, false, false, false⟩ 2
  exact h.2.2.2.2.1 (by decide) (by decide) (by decide) (by decide)

/-- C9 (counterexample): the invariant `0 ≤ selected_qty ≤ quantity` fails
after `select`: an action-bearing entry with `quantity == 0` gets
`selected_qty = 1 > 0 = quantity`, and a plain entry receives the raw
requested quantity even when it exceeds `quantity` (here `select 5` on an
entry with `quantity = 2` leaves `selected_qty = 5`). -/
theorem selected_qty_range_counterexample :
    (let e1 : MenuEntry := ⟨MenuLevel.item, [], 0, 0, true, false, false⟩
     (e1.select 1).selected_qty = 1 ∧ (e1.select 1).quantity = 0) ∧
    (let e2 : MenuEntry := ⟨MenuLevel.item, [107], 2, 0, false, false, false⟩
     (e2.select 5).selected_qty = 5 ∧ (e2.select 5).quantity = 2) := by
  decide

/-- C9 (amended): for an entry that does not carry an action with
`quantity == 0`, if `0 ≤ selected_qty ≤ quantity` holds before the call and
the requested `qty` is `-1`, `-2`, or lies in `[0, quantity]`, then
`0 ≤ selected_qty ≤ quantity` holds after `select(qty)`; an action-bearing
entry with `quantity == 0` instead always ends with `selected_qty = 1`. -/
theorem selected_qty_range_invariant (e : MenuEntry) (qty : Int) :
    ((¬ (e.onSelect = true ∧ e.quantity = 0)) →
      0 ≤ e.selected_qty → e.selected_qty ≤ e.quantity →
      (qty = -1 ∨ qty = -2 ∨ (0 ≤ qty ∧ qty ≤ e.quantity)) →
      0 ≤ (e.select qty).selected_qty ∧ (e.select qty).selected_qty ≤ e.quantity) ∧
    ((e.onSelect = true ∧ e.quantity = 0) → (e.select qty).selected_qty = 1) := by
  constructor
  · intro hact h0 hq hqty
    unfold MenuEntry.select
    rw [if_neg hact]
    by_cases h2 : qty = -2
    · rw [if_pos h2]; constructor <;> simp <;> omega
    · rw [if_neg h2]
      by_cases h3 : e.selected = true
      · rw [if_pos h3]; simp; omega
      · rw [if_neg h3]
        by_cases h4 : e.quantity ≠ 0
        · rw [if_pos h4]
          change 0 ≤ (if qty = -1 then e.quantity else qty) ∧
            (if qty = -1 then e.quantity else qty) ≤ e.quantity
          rcases hqty with h | h | h
          · rw [if_pos h]; omega
          · exact absurd h h2
          · rw [if_neg (by omega)]; omega
        · rw [if_neg h4]; exact ⟨h0, hq⟩
  · intro h; simp [MenuEntry.select, h]

theorem selected_qty_range_invariant_witness :
    let e : MenuEntry := ⟨MenuLevel.item, [97], 3, 1, false, false, false⟩
    0 ≤ (e.select (-2)).selected_qty ∧ (e.select (-2)).selected_qty ≤ e.quantity := by
  have h := selected_qty_range_invariant ⟨MenuLevel.item, [97], 3, 1, false, false, false⟩ (-2)
  exact h.1 (by decide) (by decide) (by decide) (Or.inr (Or.inl rfl))

/-! ### The Menu state (character-cell build)

The stateful `Menu` operations below follow the character-cell (console)
configuration of menu.cc — the `#else` sides of `USE_TILE_LOCAL` — in which
`UIMenu::get_item_region(i)` reports the row interval `[i, i+1)` and the
scroller shade offset is absent.  The scroller itself belongs to the
external widget framework; only its clamping of the offset is modelled
(see `scrollerSet`). -/

/-- Key-code constants from the external defines.h header.  The exact
numeric values are immaterial to menu.cc (only distinctness and not being
a printable character matter), so representative distinct values are used. -/
def CK_ENTER : Int := 13

def CK_REDRAW : Int := -1001

def CK_MOUSE_B1 : Int := -1002

def CK_MOUSE_CLICK : Int := -1003

def CK_NUMPAD_ENTER : Int := -1004

def CK_NUMPAD_DECIMAL : Int := -1005

def CK_NUMPAD_SUBTRACT : Int := -1006

def CK_NUMPAD_SUBTRACT2 : Int := -1007

def CK_NUMPAD_MULTIPLY : Int := -1008

/-- Modelled from the spec: `isadigit` lives in the external string
utilities; a key "is a digit" when it is one of the codes of `'0'..'9'`
(48..57). -/
def isadigit (k : Int) : Bool := decide (48 ≤ k ∧ k ≤ 57)

/-- `_key_is_minus` (menu.cc:1533-1544), console configuration: `'-'` (45)
or one of the numpad subtract codes. -/
def key_is_minus (k : Int) : Bool :=
  decide (k = 45 ∨ k = CK_NUMPAD_SUBTRACT ∨ k = CK_NUMPAD_SUBTRACT2)

/-- Total indexing of the entry list by a `Nat` index (out-of-range reads,
which would be undefined behaviour in the C++, yield the default entry). -/
def getEntryN (l : List MenuEntry) (i : Nat) : MenuEntry := l.getD i default

/-- Total indexing by an `Int` index. -/
def getEntryI (l : List MenuEntry) (i : Int) : MenuEntry :=
  if i < 0 then default else l.getD i.toNat default

/-- Modelled from the spec: `MenuEntry::is_hotkey` is declared in menu.h,
outside this source slice; per spec §4.5 an entry matches a key when the
key "is one of its hotkeys". -/
def MenuEntry.is_hotkey (e : MenuEntry) (key : Int) : Bool := decide (key ∈ e.hotkeys)

/-- The mutable state of `Menu` (and the fragment of `UIMenu` state the
claims touch).  The `MF_*` flag bits are individual booleans; `num` is the
quantity accumulator (-1 = unset); `sel` caches the indices collected by
the last `get_selected`; `forceScroll`/`initialHoverSnap` are
`UIMenu::m_force_scroll` / `m_initial_hover_snap`. -/
structure MenuState where
  items : List MenuEntry
  multiselect : Bool
  singleselect : Bool
  noselect : Bool
  noSelectQty : Bool
  arrowsSelect : Bool
  wrapFlag : Bool
  selectByPage : Bool
  anyPrintable : Bool
  preselected : Bool
  showEmpty : Bool
  specialMinus : Bool
  filterEmpty : Bool
  num : Int
  lastch : Int
  sel : List Nat
  last_hovered : Int
  scroll : Int
  vph : Int
  forceScroll : Int
  initialHoverSnap : Bool
deriving DecidableEq, Repr

def MenuState.size (s : MenuState) : Nat := s.items.length

/-- Modelled from the spec: `Scroller::set_scroll` belongs to the external
widget framework (ui.cc); per spec §4.3 the scroll offset is kept
non-negative.  The framework's upper clamp never binds for the offsets the
menu requests, since they all lie below the content height. -/
def scrollerSet (s : MenuState) (y : Int) : MenuState := { s with scroll := max 0 y }

/-- The `first` component of `Menu::get_header_block` (menu.cc:2755-2765):
scan backwards over entries whose level is not `MEL_ITEM`. -/
def blockStartAux (l : List MenuEntry) : Nat → Nat
  | 0 => 0
  | n + 1 => if (getEntryN l n).level ≠ MenuLevel.item then blockStartAux l n else n + 1

def MenuState.blockStart (s : MenuState) (i : Nat) : Nat := blockStartAux s.items i

/-- `Menu::get_first_visible` (menu.cc:1776-1797), console configuration:
the first index `i` with `item_y1 = i ≥ scroll`, optionally skipping
title/subtitle entries; `items.size()` when none qualifies. -/
def firstVisibleAux (scroll : Int) (skip : Bool) : List MenuEntry → Nat → Nat
  | [], n => n
  | e :: rest, n =>
    if (n : Int) ≥ scroll ∧ (skip = true → (e.level ≠ MenuLevel.title ∧ e.level ≠ MenuLevel.subtitle))
    then n else firstVisibleAux scroll skip rest (n + 1)

def MenuState.get_first_visible (s : MenuState) (skip : Bool) : Nat :=
  firstVisibleAux s.scroll skip s.items 0

/-- `Menu::in_page` (menu.cc:2489-2498), console regions. -/
def MenuState.in_page (s : MenuState) (index : Nat) (strict : Bool) : Bool :=
  let y1 : Int := index
  let y2 : Int := index + 1
  let upper := decide (s.scroll ≤ y1 ∧ y1 ≤ s.scroll + s.vph)
  let lower := decide (s.scroll ≤ y2 ∧ y2 ≤ s.scroll + s.vph)
  if strict then upper && lower else upper || lower

/-- `Menu::snap_in_page` (menu.cc:2568-2613), console configuration. -/
def MenuState.snap_in_page (s : MenuState) (index : Int) : MenuState × Bool :=
  if s.vph = 0 then (s, false)
  else if index < 0 ∨ (s.size : Int) ≤ index then (s, false)
  else
    let y2 : Int := index + 1
    let y1 : Int := (s.blockStart index.toNat : Int)
    if y2 ≥ s.scroll + s.vph then (scrollerSet s (y2 - s.vph), true)
    else if y1 < s.scroll then (scrollerSet s y1, true)
    else (s, false)

/-- `Menu::set_scroll` (menu.cc:2500-2536), console configuration.  A zero
viewport height records the index in `UIMenu::m_force_scroll`
(`set_initial_scroll`) and reports no change. -/
def MenuState.set_scroll (s : MenuState) (index : Int) : MenuState × Bool :=
  if s.vph = 0 then ({ s with forceScroll := index }, false)
  else if index < 0 ∨ (s.size : Int) ≤ index then (s, false)
  else
    let y1 : Int := (s.blockStart index.toNat : Int)
    let vpy := s.scroll
    (scrollerSet s y1, decide (vpy ≠ y1))

/-- `Menu::item_visible` (menu.cc:2538-2564), console configuration. -/
def MenuState.item_visible (s : MenuState) (index : Int) : Bool :=
  if s.vph = 0 then false
  else if index < 0 ∨ (s.size : Int) ≤ index then false
  else
    let y2 : Int := index + 1
    let y1 : Int := (s.blockStart index.toNat : Int)
    decide (y1 ≥ s.scroll ∧ y2 < s.scroll + s.vph)

/-- `Menu::set_hovered` (menu.cc:2466-2487).  Without `force` and without
`MF_ARROWS_SELECT` it only snaps; otherwise it clamps the hover index and
snaps it into view. -/
def MenuState.set_hovered (s : MenuState) (index : Int) (force : Bool) : MenuState :=
  if force = false ∧ s.arrowsSelect = false then (s.snap_in_page index).1
  else
    let s1 := { s with last_hovered := min index ((s.size : Int) - 1) }
    if s1.last_hovered ≥ 0 then (s1.snap_in_page s1.last_hovered).1 else s1

/-- `UIMenu::_allocate_region` (menu.cc:661-695), the initial-setup half
that replays a remembered scroll request and performs the one-time hover
snap; the console build then records `m_height = items.size()`.  The
viewport height assignment models the framework having allocated the
scroller region before this call. -/
def MenuState.allocate_region (s : MenuState) (h : Int) : MenuState :=
  let s1 : MenuState := { s with vph := h }
  let s2 := if s1.forceScroll ≥ 0
            then { (s1.set_scroll s1.forceScroll).1 with forceScroll := -1 }
            else s1
  if s2.initialHoverSnap = false then
    let s3 := if s2.last_hovered ≥ 0 then (s2.snap_in_page s2.last_hovered).1 else s2
    { s3 with initialHoverSnap := true }
  else s2

/-! ### Selection controller -/

/-- `Menu::is_hotkey` (menu.cc:1799-1806): normalise numpad minus to `'-'`,
test entry hotkey membership, and under `MF_SELECT_BY_PAGE` additionally
require the entry to be on the current page. -/
def MenuState.is_hotkey (s : MenuState) (i : Nat) (key : Int) : Bool :=
  let key := if key_is_minus key then 45 else key
  (getEntryN s.items i).is_hotkey key &&
    (!s.selectByPage || s.in_page i false)

/-- `Menu::is_selectable` (menu.cc:2241-2252): with an empty filter every
entry is selectable, otherwise the entry's filter text must match. -/
def MenuState.is_selectable (s : MenuState) (i : Nat) : Bool :=
  if s.filterEmpty then true else (getEntryN s.items i).filterMatch

/-- `Menu::select_item_index` (menu.cc:2254-2261): apply
`MenuEntry::select` to one entry (the trailing `update_item` only refreshes
the display mirror). -/
def MenuState.select_item_index (s : MenuState) (idx : Nat) (qty : Int) : MenuState :=
  { s with items := s.items.set idx ((getEntryN s.items idx).select qty) }

/-- The shared loop body of the two bulk branches of `Menu::select_index`
(menu.cc:2269-2300): walk indices upward, skipping entries that are not
`MEL_ITEM` or have no hotkeys, and select those whose primary hotkey passes
`Menu::is_hotkey`; the select-all branch (`checkFilter = true`) additionally
requires `qty != -2 || is_selectable(i)`. -/
def selLoop (qty : Int) (checkFilter : Bool) : Nat → Nat → MenuState → MenuState
  | 0, _, s => s
  | fuel + 1, i, s =>
    let e := getEntryN s.items i
    let s2 := if e.level = MenuLevel.item ∧ e.hotkeys ≠ [] ∧
                 s.is_hotkey i (e.hotkeys.headD 0) = true ∧
                 (checkFilter = true → (qty ≠ -2 ∨ s.is_selectable i = true))
              then s.select_item_index i qty else s
    selLoop qty checkFilter fuel (i + 1) s2

/-- `Menu::select_index` (menu.cc:2263-2306). -/
def MenuState.select_index (s : MenuState) (index qty : Int) : MenuState :=
  if index = -1 then
    if s.multiselect then selLoop qty true s.items.length 0 s else s
  else
    let e := getEntryI s.items index
    if e.level = MenuLevel.subtitle ∧ s.multiselect then
      selLoop qty false (s.items.length - (index.toNat + 1)) (index.toNat + 1) s
    else if e.level = MenuLevel.item ∧ (s.singleselect ∨ s.multiselect) then
      s.select_item_index index.toNat qty
    else s

/-- C10: for every flag configuration and every `qty`, `select_index` at an
index holding a `MEL_TITLE` or `MEL_NONE` entry leaves every entry's
`selected_qty` (indeed the whole state) unchanged. -/
theorem select_index_title_frame (s : MenuState) (index qty : Int)
    (h0 : 0 ≤ index) (hlen : index < (s.size : Int))
    (hlevel : (getEntryI s.items index).level = MenuLevel.title ∨
              (getEntryI s.items index).level = MenuLevel.nolevel) :
    (∀ j : Nat, (getEntryN (s.select_index index qty).items j).selected_qty =
        (getEntryN s.items j).selected_qty) ∧
    s.select_index index qty = s := by
  have hne : index ≠ -1 := by omega
  have hsub : ¬ ((getEntryI s.items index).level = MenuLevel.subtitle ∧ s.multiselect = true) := by
    rcases hlevel with h | h <;> simp [h]
  have hitem : ¬ ((getEntryI s.items index).level = MenuLevel.item ∧
      (s.singleselect = true ∨ s.multiselect = true)) := by
    rcases hlevel with h | h <;> simp [h]
  have heq : s.select_index index qty = s := by
    unfold MenuState.select_index
    rw [if_neg hne, if_neg hsub, if_neg hitem]
  exact ⟨fun j => by rw [heq], heq⟩

theorem select_index_title_frame_witness :
    let e : MenuEntry := ⟨MenuLevel.title, [], 0, 0, false, false, false⟩
    let s : MenuState := ⟨[e], true, false, false, false, false, false, false,
      false, false, false, false, true, -1, 0, [], -1, 0, 5, -1, true⟩
    (∀ j : Nat, (getEntryN (s.select_index 0 7).items j).selected_qty =
        (getEntryN s.items j).selected_qty) ∧
    s.select_index 0 7 = s := by
  exact select_index_title_frame _ 0 7 (by decide) (by decide) (by decide)

/-! ### Snap idempotence (C5) and the zero-viewport protocol (C8) -/

theorem scrollerSet_items (s : MenuState) (y : Int) : (scrollerSet s y).items = s.items := rfl

theorem scrollerSet_vph (s : MenuState) (y : Int) : (scrollerSet s y).vph = s.vph := rfl

theorem scrollerSet_scroll (s : MenuState) (y : Int) : (scrollerSet s y).scroll = max 0 y := rfl

theorem scrollerSet_twice (s : MenuState) (y z : Int) :
    scrollerSet (scrollerSet s y) z = scrollerSet s z := rfl

theorem scrollerSet_self (s : MenuState) (hy : max 0 y = s.scroll) : scrollerSet s y = s := by
  unfold scrollerSet
  rw [hy]

theorem blockStart_scrollerSet (s : MenuState) (y : Int) (i : Nat) :
    (scrollerSet s y).blockStart i = s.blockStart i := rfl

theorem size_scrollerSet (s : MenuState) (y : Int) : (scrollerSet s y).size = s.size := rfl

theorem snap_in_page_eq (s : MenuState) (index : Int) (hv : ¬ s.vph = 0)
    (hin : ¬ (index < 0 ∨ (s.size : Int) ≤ index)) :
    s.snap_in_page index =
      (if index + 1 ≥ s.scroll + s.vph then (scrollerSet s (index + 1 - s.vph), true)
       else if (s.blockStart index.toNat : Int) < s.scroll
       then (scrollerSet s (s.blockStart index.toNat : Int), true)
       else (s, false)) := by
  unfold MenuState.snap_in_page
  rw [if_neg hv, if_neg hin]

/-- C5 (counterexample): with the console row geometry, after a first
`snap_in_page` scrolls an entry up to the bottom edge of the viewport, a
second call with unchanged state re-runs the downward branch (its `>=`
test is satisfied with equality), re-issues the same scroll value, and
reports `true` ("changed") instead of the claimed `false`. -/
theorem snap_in_page_claim_counterexample :
    let e : MenuEntry := ⟨MenuLevel.item, [97], 1, 0, false, false, false⟩
    let s : MenuState := ⟨[e, e], false, true, false, false, false, false, false,
      false, false, false, false, true, -1, 0, [], -1, 0, 1, -1, true⟩
    let r1 := s.snap_in_page 1
    let r2 := r1.1.snap_in_page 1
    r2.1.scroll = r1.1.scroll ∧ r2.2 = true := by
  decide

/-- C5 (amended): provided the span from the entry's header-block start to
the entry's bottom fits in the viewport, a second `snap_in_page` with no
intervening state change never changes the state (in particular the scroll
value); however it reports "changed" (`true`) exactly on the boundary where
the first call left the entry's bottom flush with the viewport bottom, i.e.
the second call returns `true` only when the scroll equals `y2 − height`. -/
theorem snap_in_page_second_call (s : MenuState) (index : Int)
    (hv : 0 < s.vph) (h0 : 0 ≤ index) (hlen : index < (s.size : Int))
    (hspan : index + 1 - (s.blockStart index.toNat : Int) ≤ s.vph) :
    ((s.snap_in_page index).1.snap_in_page index).1 = (s.snap_in_page index).1 ∧
    (((s.snap_in_page index).1.snap_in_page index).2 = true →
      (s.snap_in_page index).1.scroll = index + 1 - s.vph) := by
  have hv0 : ¬ s.vph = 0 := by omega
  have hin : ¬ (index < 0 ∨ (s.size : Int) ≤ index) := by omega
  have hb0 : (0 : Int) ≤ (s.blockStart index.toNat : Int) := Int.natCast_nonneg _
  rw [snap_in_page_eq s index hv0 hin]
  by_cases c1 : index + 1 ≥ s.scroll + s.vph
  · rw [if_pos c1]
    have hv1 : ¬ (scrollerSet s (index + 1 - s.vph)).vph = 0 := by
      rw [scrollerSet_vph]; omega
    have hin1 : ¬ (index < 0 ∨ ((scrollerSet s (index + 1 - s.vph)).size : Int) ≤ index) := by
      rw [size_scrollerSet]; omega
    rw [snap_in_page_eq _ index hv1 hin1]
    rw [blockStart_scrollerSet, scrollerSet_vph, scrollerSet_scroll]
    by_cases hy2 : s.vph ≤ index + 1
    · have hmax : max 0 (index + 1 - s.vph) = index + 1 - s.vph := by omega
      have c1b : index + 1 ≥ max 0 (index + 1 - s.vph) + s.vph := by omega
      rw [if_pos c1b, scrollerSet_twice]
      exact ⟨rfl, fun _ => hmax⟩
    · have hmax : max 0 (index + 1 - s.vph) = 0 := by omega
      have c1b : ¬ index + 1 ≥ max 0 (index + 1 - s.vph) + s.vph := by omega
      rw [if_neg c1b, if_neg (by omega)]
      exact ⟨rfl, by simp⟩
  · rw [if_neg c1]
    by_cases c2 : (s.blockStart index.toNat : Int) < s.scroll
    · rw [if_pos c2]
      have hv1 : ¬ (scrollerSet s (s.blockStart index.toNat : Int)).vph = 0 := by
        rw [scrollerSet_vph]; omega
      have hin1 : ¬ (index < 0 ∨
          ((scrollerSet s (s.blockStart index.toNat : Int)).size : Int) ≤ index) := by
        rw [size_scrollerSet]; omega
      rw [snap_in_page_eq _ index hv1 hin1]
      rw [blockStart_scrollerSet, scrollerSet_vph, scrollerSet_scroll]
      have hmaxb : max 0 (s.blockStart index.toNat : Int) = (s.blockStart index.toNat : Int) := by
        omega
      by_cases c1b : index + 1 ≥ max 0 (s.blockStart index.toNat : Int) + s.vph
      · rw [if_pos c1b, scrollerSet_twice]
        have hedge : index + 1 - s.vph = (s.blockStart index.toNat : Int) := by omega
        rw [hedge]
        refine ⟨rfl, fun _ => ?_⟩
        rw [hmaxb, ← hedge]
      · rw [if_neg c1b, if_neg (by omega)]
        exact ⟨rfl, by simp⟩
    · rw [if_neg c2]
      rw [snap_in_page_eq s index hv0 hin, if_neg c1, if_neg c2]
      exact ⟨rfl, by simp⟩

theorem snap_in_page_second_call_witness :
    let e : MenuEntry := ⟨MenuLevel.item, [97], 1, 0, false, false, false⟩
    let s : MenuState := ⟨[e, e, e], false, true, false, false, false, false, false,
      false, false, false, false, true, -1, 0, [], -1, 0, 2, -1, true⟩
    ((s.snap_in_page 2).1.snap_in_page 2).1 = (s.snap_in_page 2).1 ∧
    (((s.snap_in_page 2).1.snap_in_page 2).2 = true →
      (s.snap_in_page 2).1.scroll = 2 + 1 - s.vph) := by
  exact snap_in_page_second_call _ 2 (by decide) (by decide) (by decide) (by decide)

/-- C8 (counterexample): a `snap_in_page` issued while the viewport height
is zero is *not* remembered: the state (including `m_force_scroll`) is
completely unchanged, and once a real height is allocated the scroll stays
at 0, whereas an actually replayed snap would have scrolled to 1. -/
theorem zero_viewport_claim_counterexample :
    let e : MenuEntry := ⟨MenuLevel.item, [97], 1, 0, false, false, false⟩
    let s0 : MenuState := ⟨[e, e, e], false, true, false, false, false, false, false,
      false, false, false, false, true, -1, 0, [], -1, 0, 0, -1, true⟩
    s0.snap_in_page 2 = (s0, false) ∧
    ((s0.snap_in_page 2).1.allocate_region 2).scroll = 0 ∧
    ((({ s0 with vph := 2 } : MenuState).snap_in_page 2).1).scroll = 1 := by
  decide

/-- C8 (amended): with a zero viewport height every scroll-dependent
operation returns its "not ready" sentinel without touching the scroll
state; a `set_scroll` request is remembered in `m_force_scroll` and is
replayed by the first `_allocate_region` once a valid height is known,
but a `snap_in_page` request is forgotten (only the hover, if any, is
snapped on the first allocation). -/
theorem zero_viewport_not_ready (s : MenuState) (i h : Int) (hz : s.vph = 0) :
    s.set_scroll i = ({ s with forceScroll := i }, false) ∧
    s.snap_in_page i = (s, false) ∧
    s.item_visible i = false ∧
    (s.initialHoverSnap = true → 0 ≤ i → i < (s.size : Int) → ¬ h = 0 →
      (s.set_scroll i).1.allocate_region h =
        { (({ s with vph := h } : MenuState).set_scroll i).1 with forceScroll := -1 }) := by
  refine ⟨?_, ?_, ?_, ?_⟩
  · unfold MenuState.set_scroll; rw [if_pos hz]
  · unfold MenuState.snap_in_page; rw [if_pos hz]
  · unfold MenuState.item_visible; rw [if_pos hz]
  · intro hsnap h0 hlt hh
    have h1 : s.set_scroll i = ({ s with forceScroll := i }, false) := by
      unfold MenuState.set_scroll; rw [if_pos hz]
    rw [h1]
    unfold MenuState.allocate_region MenuState.set_scroll
    dsimp only
    have hlt2 : i < (s.items.length : Int) := hlt
    rw [if_pos (by omega : (0:Int) ≤ i), if_neg hh,
      if_neg (show ¬ (i < 0 ∨ (({ s with forceScroll := i, vph := h } : MenuState).size : Int) ≤ i) by
        simp only [MenuState.size]; omega),
      if_neg hh,
      if_neg (show ¬ (i < 0 ∨ (({ s with vph := h } : MenuState).size : Int) ≤ i) by
        simp only [MenuState.size]; omega)]
    rw [if_neg (by simp [scrollerSet, hsnap])]
    rfl

theorem zero_viewport_not_ready_witness :
    let e : MenuEntry := ⟨MenuLevel.item, [97], 1, 0, false, false, false⟩
    let s : MenuState := ⟨[e, e, e], false, true, false, false, false, false, false,
      false, false, false, false, true, -1, 0, [], -1, 0, 0, -1, true⟩
    s.set_scroll 1 = ({ s with forceScroll := 1 }, false) ∧
    s.snap_in_page 1 = (s, false) ∧
    s.item_visible 1 = false ∧
    (s.initialHoverSnap = true → 0 ≤ (1:Int) → (1:Int) < (s.size : Int) → ¬ (2:Int) = 0 →
      (s.set_scroll 1).1.allocate_region 2 =
        { (({ s with vph := 2 } : MenuState).set_scroll 1).1 with forceScroll := -1 }) := by
  exact zero_viewport_not_ready _ 1 2 (by decide)

/-! ### Hover cycling (C6) -/

/-- One index step of the scan in `Menu::cycle_hover` (menu.cc:2711-2717):
step the candidate index, wrap it modulo the entry count when `MF_WRAP` is
set (C++ truncating `%`), then clamp it into `[0, size-1]`. -/
def cycleNext (items : List MenuEntry) (wrap reverse : Bool) (cur : Int) : Int :=
  let sz : Int := items.length
  let nh1 := cur + (if reverse then -1 else 1)
  let nh2 := if wrap = true ∧ 0 < sz then Int.tmod (nh1 + sz) sz else nh1
  max 0 (min nh2 (sz - 1))

/-- The scan loop of `Menu::cycle_hover` (menu.cc:2709-2724): advance with
`cycleNext` until an `MEL_ITEM` entry is reached or the try budget is
exhausted. -/
def cycleLoop (items : List MenuEntry) (wrap reverse : Bool) : Nat → Int → Option Int
  | 0, _ => none
  | fuel + 1, cur =>
    let nh := cycleNext items wrap reverse cur
    if (getEntryI items nh).level = MenuLevel.item then some nh
    else cycleLoop items wrap reverse fuel nh

/-- `Menu::cycle_hover` (menu.cc:2696-2732). -/
def MenuState.cycle_hover (s : MenuState) (reverse : Bool) : MenuState :=
  if s.arrowsSelect = false then s
  else
    let maxItems : Int :=
      if s.wrapFlag then (s.items.length : Int)
      else if reverse then s.last_hovered
      else (s.items.length : Int) - max s.last_hovered 0
    let start := if reverse = true ∧ s.last_hovered < 0 then 0 else s.last_hovered
    match cycleLoop s.items s.wrapFlag reverse maxItems.toNat start with
    | some nh => s.set_hovered nh false
    | none => s

theorem cycleLoop_succ (items : List MenuEntry) (wrap reverse : Bool) (n : Nat) (cur : Int) :
    cycleLoop items wrap reverse (n + 1) cur =
      (if (getEntryI items (cycleNext items wrap reverse cur)).level = MenuLevel.item
       then some (cycleNext items wrap reverse cur)
       else cycleLoop items wrap reverse n (cycleNext items wrap reverse cur)) := rfl

theorem cycleNext_nowrap_fwd (items : List MenuEntry) (cur : Int) :
    cycleNext items false false cur = max 0 (min (cur + 1) ((items.length : Int) - 1)) := rfl

theorem cycleNext_nowrap_rev (items : List MenuEntry) (cur : Int) :
    cycleNext items false true cur = max 0 (min (cur + -1) ((items.length : Int) - 1)) := rfl

theorem getEntryI_item_bounds (items : List MenuEntry) (i : Int)
    (h : (getEntryI items i).level = MenuLevel.item) :
    0 ≤ i ∧ i < (items.length : Int) := by
  unfold getEntryI at h
  split at h
  · exact absurd h (by decide)
  · rename_i hge
    push_neg at hge
    refine ⟨hge, ?_⟩
    by_contra hc
    push_neg at hc
    rw [List.getD_eq_default] at h
    · exact absurd h (by decide)
    · omega

theorem snap_preserves_last_hovered (s : MenuState) (i : Int) :
    (s.snap_in_page i).1.last_hovered = s.last_hovered := by
  unfold MenuState.snap_in_page
  dsimp only
  split_ifs <;> rfl

theorem snap_preserves_items (s : MenuState) (i : Int) :
    (s.snap_in_page i).1.items = s.items := by
  unfold MenuState.snap_in_page
  dsimp only
  split_ifs <;> rfl

theorem cycleLoop_some_item (items : List MenuEntry) (wrap reverse : Bool)
    (fuel : Nat) (cur nh : Int)
    (h : cycleLoop items wrap reverse fuel cur = some nh) :
    0 ≤ nh ∧ nh < (items.length : Int) ∧ (getEntryI items nh).level = MenuLevel.item := by
  induction fuel generalizing cur with
  | zero => simp [cycleLoop] at h
  | succ n ih =>
    rw [cycleLoop_succ] at h
    by_cases hit : (getEntryI items (cycleNext items wrap reverse cur)).level = MenuLevel.item
    · rw [if_pos hit] at h
      cases h
      exact ⟨(getEntryI_item_bounds _ _ hit).1, (getEntryI_item_bounds _ _ hit).2, hit⟩
    · rw [if_neg hit] at h
      exact ih _ h

theorem cycleLoop_fwd_stuck (items : List MenuEntry) (last : Int)
    (hlast : last ≤ (items.length : Int) - 1)
    (hsz : 0 < (items.length : Int))
    (hno : ∀ j : Int, last < j → j < (items.length : Int) →
      (getEntryI items j).level ≠ MenuLevel.item) :
    ∀ (fuel : Nat) (cur : Int), last ≤ cur → cur ≤ (items.length : Int) - 1 →
      cycleLoop items false false fuel cur = none ∨
      cycleLoop items false false fuel cur = some last := by
  intro fuel
  induction fuel with
  | zero => intro cur _ _; left; rfl
  | succ n ih =>
    intro cur hc1 hc2
    rw [cycleLoop_succ, cycleNext_nowrap_fwd]
    by_cases hit : (getEntryI items (max 0 (min (cur + 1) ((items.length : Int) - 1)))).level
        = MenuLevel.item
    · rw [if_pos hit]
      right
      have hb := getEntryI_item_bounds _ _ hit
      have hgt : ¬ (last < max 0 (min (cur + 1) ((items.length : Int) - 1))) :=
        fun hlt => hno _ hlt hb.2 hit
      have heq : max 0 (min (cur + 1) ((items.length : Int) - 1)) = last := by omega
      rw [heq]
    · rw [if_neg hit]
      exact ih _ (by omega) (by omega)

theorem cycleLoop_rev_stuck (items : List MenuEntry) (last : Int)
    (hlast0 : 0 ≤ last)
    (hno : ∀ j : Int, 0 ≤ j → j < last →
      (getEntryI items j).level ≠ MenuLevel.item) :
    ∀ (fuel : Nat) (cur : Int), cur ≤ last →
      cycleLoop items false true fuel cur = none ∨
      cycleLoop items false true fuel cur = some last := by
  intro fuel
  induction fuel with
  | zero => intro cur _; left; rfl
  | succ n ih =>
    intro cur hc1
    rw [cycleLoop_succ, cycleNext_nowrap_rev]
    by_cases hit : (getEntryI items (max 0 (min (cur + -1) ((items.length : Int) - 1)))).level
        = MenuLevel.item
    · rw [if_pos hit]
      right
      have hb := getEntryI_item_bounds _ _ hit
      have hge : ¬ (max 0 (min (cur + -1) ((items.length : Int) - 1)) < last) :=
        fun hlt => hno _ hb.1 hlt hit
      have heq : max 0 (min (cur + -1) ((items.length : Int) - 1)) = last := by omega
      rw [heq]
    · rw [if_neg hit]
      exact ih _ (by omega)

theorem set_hovered_arrows_last (s : MenuState) (nh : Int) (ha : ¬ s.arrowsSelect = false) :
    (s.set_hovered nh false).last_hovered = min nh ((s.size : Int) - 1) := by
  unfold MenuState.set_hovered
  rw [if_neg (by simp [ha])]
  dsimp only
  split_ifs with h
  · rw [snap_preserves_last_hovered]
  · rfl

theorem cycle_hover_eq (s : MenuState) (reverse : Bool) (ha : ¬ s.arrowsSelect = false) :
    s.cycle_hover reverse =
      (match cycleLoop s.items s.wrapFlag reverse
          (if s.wrapFlag then (s.items.length : Int)
           else if reverse then s.last_hovered
           else (s.items.length : Int) - max s.last_hovered 0).toNat
          (if reverse = true ∧ s.last_hovered < 0 then 0 else s.last_hovered) with
       | some nh => s.set_hovered nh false
       | none => s) := by
  unfold MenuState.cycle_hover
  rw [if_neg ha]

/-- C6: `cycle_hover` never leaves the hover on a non-Item entry — whenever
the hover index changes, the new index is in range and holds an `MEL_ITEM`
entry; and with wraparound disabled, when no Item-level entry lies strictly
beyond the hover in the scan direction (the scan budget being bounded by
the distance to the corresponding end of the list), the hover index is left
unchanged. -/
theorem cycle_hover_lands_on_items (s : MenuState) (reverse : Bool) :
    ((s.cycle_hover reverse).last_hovered ≠ s.last_hovered →
      0 ≤ (s.cycle_hover reverse).last_hovered ∧
      (s.cycle_hover reverse).last_hovered < (s.items.length : Int) ∧
      (getEntryI s.items (s.cycle_hover reverse).last_hovered).level = MenuLevel.item) ∧
    (s.wrapFlag = false → s.last_hovered < (s.items.length : Int) →
      (∀ j : Int, s.last_hovered < j → j < (s.items.length : Int) →
        (getEntryI s.items j).level ≠ MenuLevel.item) →
      (s.cycle_hover false).last_hovered = s.last_hovered) ∧
    (s.wrapFlag = false →
      (∀ j : Int, 0 ≤ j → j < s.last_hovered →
        (getEntryI s.items j).level ≠ MenuLevel.item) →
      (s.cycle_hover true).last_hovered = s.last_hovered) := by
  refine ⟨?_, ?_, ?_⟩
  · intro hne
    by_cases ha : s.arrowsSelect = false
    · rw [MenuState.cycle_hover, if_pos ha] at hne
      exact absurd rfl hne
    · rw [cycle_hover_eq s reverse ha] at hne ⊢
      cases hm : cycleLoop s.items s.wrapFlag reverse
          (if s.wrapFlag then (s.items.length : Int)
           else if reverse then s.last_hovered
           else (s.items.length : Int) - max s.last_hovered 0).toNat
          (if reverse = true ∧ s.last_hovered < 0 then 0 else s.last_hovered) with
      | none => rw [hm] at hne; exact absurd rfl hne
      | some nh =>
        dsimp only at hne ⊢
        have hb := cycleLoop_some_item _ _ _ _ _ _ hm
        have hlast := set_hovered_arrows_last s nh ha
        have hmin : min nh ((s.size : Int) - 1) = nh := by
          have h2 := hb.2.1
          show min nh ((s.items.length : Int) - 1) = nh
          omega
        rw [hlast, hmin]
        exact hb
  · intro hw hlt hno
    by_cases ha : s.arrowsSelect = false
    · rw [MenuState.cycle_hover, if_pos ha]
    · rw [cycle_hover_eq s false ha, hw]
      simp only [Bool.false_eq_true, if_false, false_and]
      rcases Nat.eq_zero_or_pos s.items.length with h0 | hpos
      · rw [h0]
        simp only [Nat.cast_zero]
        have hz : ((0 : Int) - max s.last_hovered 0).toNat = 0 := by omega
        rw [hz]
        rfl
      · have hsz : (0 : Int) < (s.items.length : Int) := by exact_mod_cast hpos
        rcases cycleLoop_fwd_stuck s.items s.last_hovered (by omega) hsz hno
            (((s.items.length : Int) - max s.last_hovered 0).toNat) s.last_hovered
            le_rfl (by omega) with h | h
        · rw [h]
        · rw [h]
          dsimp only
          rw [set_hovered_arrows_last s _ ha]
          show min s.last_hovered ((s.items.length : Int) - 1) = s.last_hovered
          omega
  · intro hw hno
    by_cases ha : s.arrowsSelect = false
    · rw [MenuState.cycle_hover, if_pos ha]
    · rw [cycle_hover_eq s true ha, hw]
      simp only [Bool.false_eq_true, if_false, true_and, eq_self_iff_true, if_true]
      by_cases hl0 : s.last_hovered < 0
      · rw [if_pos hl0]
        have hz : s.last_hovered.toNat = 0 := by omega
        rw [hz]
        rfl
      · rw [if_neg hl0]
        push_neg at hl0
        rcases cycleLoop_rev_stuck s.items s.last_hovered hl0 hno
            s.last_hovered.toNat s.last_hovered le_rfl with h | h
        · rw [h]
        · have hb := cycleLoop_some_item _ _ _ _ _ _ h
          rw [h]
          dsimp only
          rw [set_hovered_arrows_last s _ ha]
          show min s.last_hovered ((s.items.length : Int) - 1) = s.last_hovered
          have h2 := hb.2.1
          omega

theorem cycle_hover_lands_on_items_witness :
    let eh : MenuEntry := ⟨MenuLevel.subtitle, [], 0, 0, false, false, false⟩
    let e : MenuEntry := ⟨MenuLevel.item, [97], 1, 0, false, false, false⟩
    let s : MenuState := ⟨[e, eh], false, true, false, false, true, false, false,
      false, false, false, false, true, -1, 0, [], 0, 0, 2, -1, true⟩
    (s.cycle_hover false).last_hovered = s.last_hovered := by
  intro eh e s
  refine (cycle_hover_lands_on_items s false).2.1 (by decide) (by decide) ?_
  intro j h1 h2
  have h1b : (0 : Int) < j := h1
  have h2b : j < (2 : Int) := h2
  have hj : j = 1 := by omega
  subst hj
  decide

/-! ### Hotkey resolution (C4) -/

/-- The condition of the first scan of `Menu::select_items`
(menu.cc:1845-1846): `is_hotkey(index, key) && (items[index]->hotkeys[0] ==
key || is_set(MF_SINGLESELECT))`. -/
def matchQ (s : MenuState) (key : Int) (i : Nat) : Prop :=
  s.is_hotkey i key = true ∧
  ((getEntryN s.items i).hotkeys.head? = some key ∨ s.singleselect = true)

instance (s : MenuState) (key : Int) (i : Nat) : Decidable (matchQ s key i) := by
  unfold matchQ; infer_instance

/-- The first scan of `Menu::select_items` (menu.cc:1842-1854): walk `i`
from 0, testing index `(i + first_entry) % final`, and stop at the first
entry matching `matchQ`. -/
def scanFindFrom (s : MenuState) (key : Int) (first final : Nat) : Nat → Nat → Option Nat
  | 0, _ => none
  | fuel + 1, i =>
    let idx := (i + first) % final
    if matchQ s key idx then some idx
    else scanFindFrom s key first final fuel (i + 1)

/-- The secondary scan of `Menu::select_items` (menu.cc:1859-1868): select
every entry passing `Menu::is_hotkey`, remembering the first and last such
index. -/
def selSecondLoop (key qty : Int) : Nat → Nat → MenuState × Option Nat × Option Nat →
    MenuState × Option Nat × Option Nat
  | 0, _, acc => acc
  | fuel + 1, i, (s, fst, lst) =>
    if s.is_hotkey i key = true then
      selSecondLoop key qty fuel (i + 1)
        (s.select_index i qty, (if fst.isNone then some i else fst), some i)
    else selSecondLoop key qty fuel (i + 1) (s, fst, lst)

/-- `Menu::select_items` (menu.cc:1808-1879), console configuration. -/
def MenuState.select_items (s : MenuState) (key qty : Int) : MenuState :=
  if key = 44 ∧ s.multiselect = true then s.select_index (-1) (-2)
  else if (key = 42 ∨ key = CK_NUMPAD_MULTIPLY) ∧ s.multiselect = true then
    s.select_index (-1) (-1)
  else if key_is_minus key = true ∧ s.multiselect = true then s.select_index (-1) 0
  else
    let final := s.items.length
    let first := s.get_first_visible false
    match scanFindFrom s key first final final 0 with
    | some idx => (s.select_index idx qty).set_hovered idx false
    | none =>
      if s.multiselect = true then
        match selSecondLoop key qty final 0 (s, none, none) with
        | (s2, some fstSnap, some lstSnap) =>
            ((s2.snap_in_page lstSnap).1).set_hovered fstSnap false
        | (s2, _, _) => s2
      else s

/-- C4 (counterexample): two failures of the claim.  (i) Under
`MF_SELECT_BY_PAGE` in a SingleSelect menu, an off-page entry whose primary
hotkey is the key is *not* chosen (the claim's "iff" omits the on-page
requirement): the state is returned unchanged and nothing gets selected.
(ii) Under MultiSelect, an already-selected entry whose (secondary) hotkey
set contains the key is toggled *off* by the secondary pass, not
"selected". -/
theorem select_items_claim_counterexample :
    (let e0 : MenuEntry := ⟨MenuLevel.item, [97], 1, 0, false, false, false⟩
     let e1 : MenuEntry := ⟨MenuLevel.item, [98], 1, 0, false, false, false⟩
     let e2 : MenuEntry := ⟨MenuLevel.item, [99], 1, 0, false, false, false⟩
     let sA : MenuState := ⟨[e0, e1, e2], false, true, false, false, false, false, true,
       false, false, false, false, true, -1, 0, [], -1, 2, 1, -1, true⟩
     (getEntryN sA.items 0).hotkeys.head? = some 97 ∧ sA.singleselect = true ∧
       sA.select_items 97 1 = sA ∧
       (getEntryN (sA.select_items 97 1).items 0).selected = false) ∧
    (let f0 : MenuEntry := ⟨MenuLevel.item, [104, 107], 1, 1, false, false, false⟩
     let sB : MenuState := ⟨[f0], true, false, false, false, false, false, false,
       false, false, false, false, true, -1, 0, [], -1, 0, 5, -1, true⟩
     (107 : Int) ∈ (getEntryN sB.items 0).hotkeys ∧ sB.multiselect = true ∧
       (getEntryN sB.items 0).selected = true ∧
       (getEntryN (sB.select_items 107 (-1)).items 0).selected = false) := by
  decide

theorem getEntryN_set_self (l : List MenuEntry) (x : MenuEntry) (i : Nat) (h : i < l.length) :
    getEntryN (l.set i x) i = x := by
  unfold getEntryN List.getD
  rw [List.get?_set_eq_of_lt _ h]
  rfl

theorem getEntryN_set_ne (l : List MenuEntry) (x : MenuEntry) (i j : Nat) (h : j ≠ i) :
    getEntryN (l.set i x) j = getEntryN l j := by
  unfold getEntryN List.getD
  rw [List.get?_set_ne _ _ (Ne.symm h)]

theorem is_hotkey_items_congr (s : MenuState) (acc : List MenuEntry) (i : Nat) (key : Int)
    (h : getEntryN acc i = getEntryN s.items i) :
    ({ s with items := acc } : MenuState).is_hotkey i key = s.is_hotkey i key := by
  unfold MenuState.is_hotkey MenuState.in_page
  dsimp only
  rw [h]

theorem select_index_item (t : MenuState) (i : Nat) (qty : Int)
    (hlevel : (getEntryN t.items i).level = MenuLevel.item)
    (hsel : t.singleselect = true ∨ t.multiselect = true) :
    t.select_index i qty = t.select_item_index i qty := by
  unfold MenuState.select_index
  have hne : ¬ ((i : Int) = -1) := by omega
  rw [if_neg hne]
  have hget : getEntryI t.items (i : Int) = getEntryN t.items i := by
    unfold getEntryI getEntryN
    rw [if_neg (by omega)]
    norm_num
  rw [hget]
  dsimp only
  rw [hlevel]
  rw [if_neg (by simp), if_pos ⟨rfl, hsel⟩]
  simp

theorem scanFindFrom_succ (s : MenuState) (key : Int) (first final n i : Nat) :
    scanFindFrom s key first final (n + 1) i =
      (if matchQ s key ((i + first) % final) then some ((i + first) % final)
       else scanFindFrom s key first final n (i + 1)) := rfl

theorem scanFindFrom_none (s : MenuState) (key : Int) (first final : Nat)
    (hno : ∀ idx : Nat, idx < final → ¬ matchQ s key idx) (hf : 0 < final) :
    ∀ (fuel i : Nat), scanFindFrom s key first final fuel i = none := by
  intro fuel
  induction fuel with
  | zero => intro i; rfl
  | succ n ih =>
    intro i
    rw [scanFindFrom_succ, if_neg (hno _ (Nat.mod_lt _ hf))]
    exact ih (i + 1)

theorem scanFindFrom_finds (s : MenuState) (key : Int) (first final i0 : Nat)
    (hm : matchQ s key ((i0 + first) % final)) :
    ∀ (fuel i : Nat), i ≤ i0 → i0 < i + fuel →
      (∀ j : Nat, i ≤ j → j < i0 → ¬ matchQ s key ((j + first) % final)) →
      scanFindFrom s key first final fuel i = some ((i0 + first) % final) := by
  intro fuel
  induction fuel with
  | zero => intro i h1 h2 _; omega
  | succ n ih =>
    intro i h1 h2 hbefore
    rw [scanFindFrom_succ]
    by_cases hii : i = i0
    · subst hii
      rw [if_pos hm]
    · rw [if_neg (hbefore i le_rfl (by omega))]
      exact ih (i + 1) (by omega) (by omega) (fun j hj1 hj2 => hbefore j (by omega) hj2)

/-- The first index at or after `k` (within `fuel` steps) whose entry passes
`Menu::is_hotkey` for `key`. -/
def firstHK (s : MenuState) (key : Int) : Nat → Nat → Option Nat
  | 0, _ => none
  | fuel + 1, k => if s.is_hotkey k key = true then some k else firstHK s key fuel (k + 1)

/-- The last such index, threaded through an accumulator. -/
def lastHK (s : MenuState) (key : Int) : Nat → Nat → Option Nat → Option Nat
  | 0, _, cur => cur
  | fuel + 1, k, cur =>
    lastHK s key fuel (k + 1) (if s.is_hotkey k key = true then some k else cur)

/-- The item list produced by the secondary pass when every match is
Item-level: `select(qty)` applied exactly at the indices passing
`Menu::is_hotkey`. -/
def selApplyMatches (s : MenuState) (key qty : Int) : List MenuEntry :=
  (List.range s.items.length).map fun i =>
    if s.is_hotkey i key = true then (getEntryN s.items i).select qty else getEntryN s.items i

theorem default_is_hotkey (key : Int) : (default : MenuEntry).is_hotkey key = false := rfl

theorem is_hotkey_lt_length (s : MenuState) (k : Nat) (key : Int)
    (h : s.is_hotkey k key = true) : k < s.items.length := by
  by_contra hc
  push_neg at hc
  unfold MenuState.is_hotkey at h
  dsimp only at h
  rw [show getEntryN s.items k = default by
    unfold getEntryN; exact List.getD_eq_default _ _ hc] at h
  rw [default_is_hotkey] at h
  simp at h

theorem selSecondLoop_succ (key qty : Int) (n i : Nat) (s : MenuState)
    (fst lst : Option Nat) :
    selSecondLoop key qty (n + 1) i (s, fst, lst) =
      (if s.is_hotkey i key = true then
        selSecondLoop key qty n (i + 1)
          (s.select_index i qty, (if fst.isNone then some i else fst), some i)
       else selSecondLoop key qty n (i + 1) (s, fst, lst)) := rfl

theorem lastHK_nomatch (s : MenuState) (key : Int) :
    ∀ (fuel k : Nat) (cur : Option Nat),
      (∀ j : Nat, k ≤ j → j < k + fuel → s.is_hotkey j key = false) →
      lastHK s key fuel k cur = cur := by
  intro fuel
  induction fuel with
  | zero => intro k cur _; rfl
  | succ n ih =>
    intro k cur hno
    show lastHK s key n (k + 1) (if s.is_hotkey k key = true then some k else cur) = cur
    rw [if_neg (by rw [hno k le_rfl (by omega)]; simp)]
    exact ih (k + 1) cur (fun j h1 h2 => hno j (by omega) (by omega))

theorem lastHK_finds (s : MenuState) (key : Int) :
    ∀ (fuel k : Nat) (cur : Option Nat) (l : Nat),
      k ≤ l → l < k + fuel → s.is_hotkey l key = true →
      (∀ j : Nat, l < j → j < k + fuel → s.is_hotkey j key = false) →
      lastHK s key fuel k cur = some l := by
  intro fuel
  induction fuel with
  | zero => intro k cur l h1 h2 _ _; omega
  | succ n ih =>
    intro k cur l h1 h2 hl hno
    show lastHK s key n (k + 1) (if s.is_hotkey k key = true then some k else cur) = some l
    by_cases hkl : k = l
    · subst hkl
      rw [if_pos hl]
      exact lastHK_nomatch s key n (k + 1) (some k)
        (fun j hj1 hj2 => hno j (by omega) (by omega))
    · exact ih (k + 1) _ l (by omega) (by omega) hl (fun j hj1 hj2 => hno j hj1 (by omega))

theorem firstHK_finds (s : MenuState) (key : Int) :
    ∀ (fuel k : Nat) (f : Nat),
      k ≤ f → f < k + fuel → s.is_hotkey f key = true →
      (∀ j : Nat, k ≤ j → j < f → s.is_hotkey j key = false) →
      firstHK s key fuel k = some f := by
  intro fuel
  induction fuel with
  | zero => intro k f h1 h2 _ _; omega
  | succ n ih =>
    intro k f h1 h2 hf hno
    show (if s.is_hotkey k key = true then some k else firstHK s key n (k + 1)) = some f
    by_cases hkf : k = f
    · subst hkf; rw [if_pos hf]
    · rw [if_neg (by rw [hno k le_rfl (by omega)]; simp)]
      exact ih (k + 1) f (by omega) (by omega) hf (fun j hj1 hj2 => hno j (by omega) hj2)

theorem selSecondLoop_run (s : MenuState) (key qty : Int)
    (hmulti : s.multiselect = true)
    (hitems : ∀ i : Nat, s.is_hotkey i key = true →
      (getEntryN s.items i).level = MenuLevel.item) :
    ∀ (fuel k : Nat) (acc : List MenuEntry) (fst lst : Option Nat),
      acc.length = s.items.length →
      (∀ i : Nat, k ≤ i → getEntryN acc i = getEntryN s.items i) →
      ∃ acc2 : List MenuEntry,
        selSecondLoop key qty fuel k ({ s with items := acc }, fst, lst) =
          ({ s with items := acc2 },
           (if fst.isSome then fst else firstHK s key fuel k),
           lastHK s key fuel k lst) ∧
        acc2.length = acc.length ∧
        (∀ j : Nat, (j < k ∨ k + fuel ≤ j) → getEntryN acc2 j = getEntryN acc j) ∧
        (∀ j : Nat, k ≤ j → j < k + fuel → s.is_hotkey j key = true →
            getEntryN acc2 j = (getEntryN s.items j).select qty) ∧
        (∀ j : Nat, k ≤ j → j < k + fuel → s.is_hotkey j key = false →
            getEntryN acc2 j = getEntryN acc j) := by
  intro fuel
  induction fuel with
  | zero =>
    intro k acc fst lst hlen hinv
    refine ⟨acc, ?_, rfl, fun j _ => rfl, fun j h1 h2 _ => by omega, fun j h1 h2 _ => rfl⟩
    cases fst <;> rfl
  | succ n ih =>
    intro k acc fst lst hlen hinv
    have hcongr : ({ s with items := acc } : MenuState).is_hotkey k key = s.is_hotkey k key :=
      is_hotkey_items_congr s acc k key (hinv k le_rfl)
    rw [selSecondLoop_succ]
    by_cases hk : s.is_hotkey k key = true
    · rw [if_pos (by rw [hcongr]; exact hk)]
      have hklen : k < s.items.length := is_hotkey_lt_length s k key hk
      have hlevel : (getEntryN acc k).level = MenuLevel.item := by
        rw [hinv k le_rfl]; exact hitems k hk
      have hsel : ({ s with items := acc } : MenuState).select_index (k : Nat) qty =
          ({ s with items := acc } : MenuState).select_item_index k qty :=
        select_index_item _ k qty hlevel (Or.inr hmulti)
      have hsii : ({ s with items := acc } : MenuState).select_item_index k qty =
          { s with items := acc.set k ((getEntryN s.items k).select qty) } := by
        unfold MenuState.select_item_index
        rw [show getEntryN ({ s with items := acc } : MenuState).items k = getEntryN acc k
          from rfl, hinv k le_rfl]
      rw [hsel, hsii]
      obtain ⟨acc2, heq, hlen2, hout, hmat, hnomat⟩ :=
        ih (k + 1) (acc.set k ((getEntryN s.items k).select qty))
          (if fst.isNone then some k else fst) (some k)
          (by rw [List.length_set]; exact hlen)
          (fun i hi => by
            rw [getEntryN_set_ne _ _ _ _ (by omega)]
            exact hinv i (by omega))
      refine ⟨acc2, ?_, ?_, ?_, ?_, ?_⟩
      · rw [heq]
        have hfst : (if (if fst.isNone then some k else fst).isSome = true
              then (if fst.isNone then some k else fst)
              else firstHK s key n (k + 1)) =
            (if fst.isSome = true then fst else firstHK s key (n + 1) k) := by
          cases fst with
          | none =>
            simp only [Option.isNone_none, if_pos rfl, Option.isSome_some, if_true]
            show _ = firstHK s key (n + 1) k
            rw [show firstHK s key (n + 1) k =
              (if s.is_hotkey k key = true then some k else firstHK s key n (k + 1)) from rfl]
            rw [if_pos hk]
          | some f => simp
        have hlst : lastHK s key n (k + 1) (some k) = lastHK s key (n + 1) k lst := by
          show _ = lastHK s key n (k + 1) (if s.is_hotkey k key = true then some k else lst)
          rw [if_pos hk]
        rw [hfst, hlst]
      · rw [hlen2, List.length_set]
      · intro j hj
        rcases hj with hj | hj
        · rw [hout j (Or.inl (by omega)), getEntryN_set_ne _ _ _ _ (by omega)]
        · rw [hout j (Or.inr (by omega)), getEntryN_set_ne _ _ _ _ (by omega)]
      · intro j hj1 hj2 hjm
        by_cases hjk : j = k
        · subst hjk
          rw [hout j (Or.inl (by omega))]
          exact getEntryN_set_self _ _ _ (by omega)
        · exact hmat j (by omega) (by omega) hjm
      · intro j hj1 hj2 hjm
        by_cases hjk : j = k
        · subst hjk; rw [hjm] at hk; simp at hk
        · rw [hnomat j (by omega) (by omega) hjm, getEntryN_set_ne _ _ _ _ (by omega)]
    · rw [if_neg (by rw [hcongr]; exact hk)]
      have hkf : s.is_hotkey k key = false := by
        cases hh : s.is_hotkey k key
        · rfl
        · exact absurd hh hk
      obtain ⟨acc2, heq, hlen2, hout, hmat, hnomat⟩ :=
        ih (k + 1) acc fst lst hlen (fun i hi => hinv i (by omega))
      refine ⟨acc2, ?_, hlen2, ?_, ?_, ?_⟩
      · rw [heq]
        have hfst : firstHK s key (n + 1) k = firstHK s key n (k + 1) := by
          show (if s.is_hotkey k key = true then some k else firstHK s key n (k + 1)) = _
          rw [if_neg (by rw [hkf]; simp)]
        have hlst : lastHK s key (n + 1) k lst = lastHK s key n (k + 1) lst := by
          show lastHK s key n (k + 1) (if s.is_hotkey k key = true then some k else lst) = _
          rw [if_neg (by rw [hkf]; simp)]
        rw [hfst, hlst]
      · intro j hj
        rcases hj with hj | hj
        · exact hout j (Or.inl (by omega))
        · exact hout j (Or.inr (by omega))
      · intro j hj1 hj2 hjm
        by_cases hjk : j = k
        · subst hjk; rw [hjm] at hkf; cases hkf
        · exact hmat j (by omega) (by omega) hjm
      · intro j hj1 hj2 hjm
        by_cases hjk : j = k
        · subst hjk; exact hout j (Or.inl (by omega))
        · exact hnomat j (by omega) (by omega) hjm

theorem get?_eq_some_getEntryN (l : List MenuEntry) (n : Nat) (h : n < l.length) :
    l.get? n = some (getEntryN l n) := by
  unfold getEntryN List.getD
  cases hx : l.get? n with
  | none => rw [List.get?_eq_none] at hx; omega
  | some x => rfl

theorem selApplyMatches_length (s : MenuState) (key qty : Int) :
    (selApplyMatches s key qty).length = s.items.length := by
  unfold selApplyMatches
  simp

theorem selApplyMatches_get? (s : MenuState) (key qty : Int) (n : Nat)
    (h : n < s.items.length) :
    (selApplyMatches s key qty).get? n =
      some (if s.is_hotkey n key = true then (getEntryN s.items n).select qty
            else getEntryN s.items n) := by
  unfold selApplyMatches
  rw [List.get?_map, List.get?_range h]
  rfl

/-- C4 (amended): for a literal hotkey (not the `','`/`'*'`/`'-'`
multi-select specials), the first pass scans entries from the first visible
index, wrapping modulo the list length, and stops at the first entry
satisfying `matchQ` — the key is among its hotkeys, the entry is on the
current page whenever select-by-page is set, and the key is its primary
hotkey or the menu is SingleSelect — applying `select_index` and the hover
there; when no entry satisfies `matchQ`, under MultiSelect, provided every
entry passing `Menu::is_hotkey` is Item-level, the `select` operation is
applied at exactly the passing indices (toggling off already-selected
ones), the viewport snaps to the last passing entry and the hover (which
snaps again) moves to the first. -/
theorem select_items_hotkey_resolution (s : MenuState) (key qty : Int)
    (hcomma : ¬ (key = 44 ∧ s.multiselect = true))
    (hstar : ¬ ((key = 42 ∨ key = CK_NUMPAD_MULTIPLY) ∧ s.multiselect = true))
    (hminus : ¬ (key_is_minus key = true ∧ s.multiselect = true)) :
    (∀ i0 : Nat, i0 < s.items.length →
      matchQ s key ((i0 + s.get_first_visible false) % s.items.length) →
      (∀ j : Nat, j < i0 →
        ¬ matchQ s key ((j + s.get_first_visible false) % s.items.length)) →
      s.select_items key qty =
        (s.select_index (((i0 + s.get_first_visible false) % s.items.length : Nat) : Int)
            qty).set_hovered
          (((i0 + s.get_first_visible false) % s.items.length : Nat) : Int) false) ∧
    ((∀ idx : Nat, idx < s.items.length → ¬ matchQ s key idx) →
      s.multiselect = true →
      (∀ i : Nat, s.is_hotkey i key = true → (getEntryN s.items i).level = MenuLevel.item) →
      ∀ fst lst : Nat,
        s.is_hotkey fst key = true →
        (∀ j : Nat, j < fst → s.is_hotkey j key = false) →
        s.is_hotkey lst key = true →
        (∀ j : Nat, lst < j → j < s.items.length → s.is_hotkey j key = false) →
        s.select_items key qty =
          ((({ s with items := selApplyMatches s key qty } : MenuState).snap_in_page
              (lst : Int)).1).set_hovered (fst : Int) false) := by
  constructor
  · intro i0 hi0 hm hmin
    unfold MenuState.select_items
    rw [if_neg hcomma, if_neg hstar, if_neg hminus]
    dsimp only
    rw [scanFindFrom_finds s key (s.get_first_visible false) s.items.length i0 hm
      s.items.length 0 (by omega) (by omega) (fun j _ hj2 => hmin j hj2)]
  · intro hnoQ hmulti hitems fst lst hfst hfstmin hlst hlstmax
    have hfstlen : fst < s.items.length := is_hotkey_lt_length s fst key hfst
    have hlstlen : lst < s.items.length := is_hotkey_lt_length s lst key hlst
    have hpos : 0 < s.items.length := by omega
    unfold MenuState.select_items
    rw [if_neg hcomma, if_neg hstar, if_neg hminus]
    dsimp only
    rw [scanFindFrom_none s key (s.get_first_visible false) s.items.length hnoQ hpos
      s.items.length 0]
    dsimp only
    rw [if_pos hmulti]
    obtain ⟨acc2, heq, hlen2, hout, hmat, hnomat⟩ :=
      selSecondLoop_run s key qty hmulti hitems s.items.length 0 s.items none none rfl
        (fun i _ => rfl)
    have heq2 : selSecondLoop key qty s.items.length 0 (s, none, none) =
        ({ s with items := acc2 },
         (if (none : Option Nat).isSome = true then none
          else firstHK s key s.items.length 0),
         lastHK s key s.items.length 0 none) := heq
    have hfhk : firstHK s key s.items.length 0 = some fst :=
      firstHK_finds s key s.items.length 0 fst (Nat.zero_le _) (by omega) hfst
        (fun j _ hj2 => hfstmin j hj2)
    have hlhk : lastHK s key s.items.length 0 none = some lst :=
      lastHK_finds s key s.items.length 0 none lst (Nat.zero_le _) (by omega) hlst
        (fun j hj1 hj2 => hlstmax j hj1 (by omega))
    rw [heq2]
    simp only [Option.isSome_none, Bool.false_eq_true, if_false]
    rw [hfhk, hlhk]
    have hacc : acc2 = selApplyMatches s key qty := by
      apply List.ext
      intro n
      by_cases hn : n < s.items.length
      · rw [get?_eq_some_getEntryN acc2 n (by rw [hlen2]; exact hn),
          selApplyMatches_get? s key qty n hn]
        by_cases hhot : s.is_hotkey n key = true
        · rw [hmat n (Nat.zero_le _) (by omega) hhot, if_pos hhot]
        · have hhot2 : s.is_hotkey n key = false := by
            cases hx : s.is_hotkey n key
            · rfl
            · exact absurd hx hhot
          rw [hnomat n (Nat.zero_le _) (by omega) hhot2, if_neg hhot]
      · rw [List.get?_eq_none.2 (by rw [hlen2]; omega),
          List.get?_eq_none.2 (by rw [selApplyMatches_length]; omega)]
    rw [hacc]

theorem select_items_hotkey_resolution_witness :
    let e0 : MenuEntry := ⟨MenuLevel.subtitle, [], 0, 0, false, false, false⟩
    let e1 : MenuEntry := ⟨MenuLevel.item, [97], 1, 0, false, false, false⟩
    let e2 : MenuEntry := ⟨MenuLevel.item, [112], 1, 0, false, false, false⟩
    let e3 : MenuEntry := ⟨MenuLevel.item, [107], 1, 0, false, false, false⟩
    let s : MenuState := ⟨[e0, e1, e2, e3], true, false, false, false, false, false, false,
      false, false, false, false, true, -1, 0, [], -1, 0, 10, -1, true⟩
    s.select_items 112 1 =
      (s.select_index (((2 + s.get_first_visible false) % s.items.length : Nat) : Int)
          1).set_hovered
        (((2 + s.get_first_visible false) % s.items.length : Nat) : Int) false := by
  intro e0 e1 e2 e3 s
  refine (select_items_hotkey_resolution s 112 1 (by decide) (by decide) (by decide)).1 2
    (by decide) (by decide) ?_
  intro j hj
  interval_cases j <;> decide

/-! ### The per-key pipeline (C7) -/

/-- External hooks of the key pipeline: the optional key-rewrite filter
(`f_keyfilter`), the external `key_to_command` mapping for the menu context
(`none` = `CMD_NO_CMD`; commands are opaque numbers here), and the
`on_single_selection` callback. -/
structure MenuHooks where
  keyfilter : Int → Int
  keyToCommand : Int → Option Nat
  hasOnSingleSelection : Bool
  onSingleSelectionResult : MenuEntry → Bool

/-- The command code `CMD_MENU_EXIT` returned by `Menu::get_command` for
`keyin == -1` (menu.cc:1562-1563); its numeric value is immaterial. -/
def CMD_MENU_EXIT : Nat := 0

/-- `Menu::minus_is_pageup` (menu.cc:1047-1050). -/
def MenuState.minus_is_pageup (s : MenuState) : Bool := !s.multiselect && !s.specialMinus

/-- `Menu::skip_process_command` (menu.cc:1546-1553). -/
def MenuState.skip_process_command (s : MenuState) (k : Int) : Bool :=
  key_is_minus k && !s.minus_is_pageup

/-- `Menu::get_command` (menu.cc:1555-1566). -/
def MenuState.get_command (s : MenuState) (hooks : MenuHooks) (k : Int) : Option Nat :=
  if s.skip_process_command k = true then none
  else if k = -1 then some CMD_MENU_EXIT
  else hooks.keyToCommand k

/-- `Menu::get_selected` (menu.cc:1746-1753), recorded as the list of
selected indices. -/
def getSelectedIdx (items : List MenuEntry) : List Nat :=
  (List.range items.length).filter fun i => (getEntryN items i).selected

/-- `Menu::deselect_all` (menu.cc:1755-1772): clear the selection of every
selected `MEL_ITEM` entry and the cached `sel`. -/
def MenuState.deselect_all (s : MenuState) : MenuState :=
  { s with
    items := s.items.map fun e =>
      if e.level = MenuLevel.item ∧ e.selected = true then e.select 0 else e,
    sel := [] }

/-- The key value after the filter, the (identity) `Menu::pre_process`
(menu.cc:1337-1340), and the space-to-`'.'` remap of
`Menu::process_key` (menu.cc:1599-1604). -/
def MenuState.transformedKey (s : MenuState) (hooks : MenuHooks) (keyin : Int) : Int :=
  let k1 := hooks.keyfilter keyin
  if k1 = 32 ∧ s.multiselect = true ∧ s.arrowsSelect = true then 46 else k1

/-- Instrumented result of `process_key`: the continue/stop verdict, which
command (if any) was executed via `process_command`, and whether the
SingleSelect action path was taken. -/
structure PKOut where
  ret : Bool
  executed : Option Nat
  actionPath : Bool
deriving DecidableEq, Repr

/-- The quantity-accumulator reset after the key switch
(menu.cc:1715-1717). -/
def afterSwitch (s : MenuState) (k : Int) : MenuState × PKOut :=
  (if isadigit k = true then s else { s with num := -1 }, ⟨true, none, false⟩)

/-- The tail of the `default:` arm after `select_items` has run and the
selection has been re-collected (menu.cc:1684-1712): the SingleSelect
action dispatch, the `MF_ANYPRINTABLE` early exit, or the plain `break`. -/
def defaultTail (s3 : MenuState) (hooks : MenuHooks) (k : Int) : MenuState × PKOut :=
  if s3.sel.length = 1 ∧ s3.singleselect = true then
    let idx := s3.sel.headD 0
    let item := getEntryN s3.items idx
    let result := if item.onSelect then item.onSelectResult
                  else if hooks.hasOnSingleSelection then hooks.onSingleSelectionResult item
                  else false
    (if result then s3.deselect_all else s3, ⟨result, none, true⟩)
  else
    if s3.anyPrintable = true ∧ (¬ isadigit k = true ∨ s3.noSelectQty = true) then
      (s3, ⟨false, none, false⟩)
    else afterSwitch s3 k

/-- The `default:` arm of the key switch in `Menu::process_key`
(menu.cc:1664-1712); `Menu::post_process` (menu.cc:1342-1345) is the
identity. -/
def defaultBranch (s : MenuState) (hooks : MenuHooks) (k : Int) : MenuState × PKOut :=
  let s1 := { s with lastch := k }
  if ¬ (s1.singleselect = true ∨ s1.multiselect = true) then (s1, ⟨false, none, false⟩)
  else
    let s2 := s1.select_items k s1.num
    defaultTail { s2 with sel := getSelectedIdx s2.items } hooks k

/-- The key switch of `Menu::process_key` (menu.cc:1621-1713), console
configuration (no touch-UI cases; the numpad cases are present). -/
def processKeySwitch (s : MenuState) (hooks : MenuHooks) (k : Int) : MenuState × PKOut :=
  if k = CK_REDRAW then (s, ⟨true, none, false⟩)
  else if k = 0 then (s, ⟨true, none, false⟩)
  else if (k = CK_MOUSE_B1 ∨ k = CK_MOUSE_CLICK) ∧ s.noselect = false then
    afterSwitch s k
  else if k = CK_MOUSE_B1 ∨ k = CK_MOUSE_CLICK ∨ k = 46 ∨ k = CK_NUMPAD_DECIMAL then
    let s2 := if s.last_hovered ≠ -1 ∧ s.multiselect = true then
        let t := s.select_item_index s.last_hovered.toNat (-1)
        { t with sel := getSelectedIdx t.items }
      else s
    afterSwitch s2 k
  else if k = CK_ENTER ∨ k = CK_NUMPAD_ENTER then
    if s.singleselect = true ∧ s.last_hovered ≥ 0 then
      defaultBranch (s.select_item_index s.last_hovered.toNat 1) hooks k
    else if ¬ s.preselected = true ∨ s.sel ≠ [] then (s, ⟨false, none, false⟩)
    else defaultBranch s hooks k
  else defaultBranch s hooks k

/-- `Menu::process_key` (menu.cc:1568-1726), console configuration.
`cmdExec` abstracts `Menu::process_command` (menu.cc:1393-1531): no command
handler touches the quantity accumulator, and the final
`if (cmd != CMD_NO_CMD) num = -1` reset (menu.cc:1522-1523) is modelled
exactly. -/
def MenuState.process_key (s : MenuState) (hooks : MenuHooks)
    (cmdExec : Nat → MenuState → MenuState × Bool) (keyin : Int) : MenuState × PKOut :=
  if s.showEmpty = false ∧ s.items = [] then
    ({ s with lastch := keyin }, ⟨false, none, false⟩)
  else
    let k := s.transformedKey hooks keyin
    if s.noSelectQty = false ∧ s.noselect = false ∧ isadigit k = true then
      let n1 := if s.num > 999 then -1 else s.num
      let s2 := { s with num := if n1 = -1 then k - 48 else n1 * 10 + (k - 48) }
      processKeySwitch s2 hooks k
    else
      match s.get_command hooks k with
      | some cmd =>
        let r := cmdExec cmd s
        ({ r.1 with num := -1 }, ⟨r.2, some cmd, false⟩)
      | none => processKeySwitch s hooks k

theorem select_item_index_num (s : MenuState) (i : Nat) (qty : Int) :
    (s.select_item_index i qty).num = s.num := rfl

theorem selLoop_num (qty : Int) (cf : Bool) :
    ∀ (fuel i : Nat) (s : MenuState), (selLoop qty cf fuel i s).num = s.num := by
  intro fuel
  induction fuel with
  | zero => intro i s; rfl
  | succ n ih =>
    intro i s
    show (selLoop qty cf n (i + 1) _).num = s.num
    rw [ih]
    split_ifs <;> rfl

theorem select_index_num (s : MenuState) (index qty : Int) :
    (s.select_index index qty).num = s.num := by
  unfold MenuState.select_index
  dsimp only
  split_ifs <;> first | rfl | (rw [selLoop_num])

theorem snap_preserves_num (s : MenuState) (i : Int) :
    (s.snap_in_page i).1.num = s.num := by
  unfold MenuState.snap_in_page
  dsimp only
  split_ifs <;> rfl

theorem set_hovered_num (s : MenuState) (i : Int) (force : Bool) :
    (s.set_hovered i force).num = s.num := by
  unfold MenuState.set_hovered
  dsimp only
  split_ifs <;> first | rw [snap_preserves_num] | rfl

theorem selSecondLoop_num (key qty : Int) :
    ∀ (fuel i : Nat) (t : MenuState × Option Nat × Option Nat),
      (selSecondLoop key qty fuel i t).1.num = t.1.num := by
  intro fuel
  induction fuel with
  | zero => intro i t; rfl
  | succ n ih =>
    intro i t
    obtain ⟨s, fst, lst⟩ := t
    rw [selSecondLoop_succ]
    by_cases h : s.is_hotkey i key = true
    · rw [if_pos h, ih]
      exact select_index_num s i qty
    · rw [if_neg h, ih]

theorem select_items_num (s : MenuState) (key qty : Int) :
    (s.select_items key qty).num = s.num := by
  unfold MenuState.select_items
  dsimp only
  by_cases h1 : key = 44 ∧ s.multiselect = true
  · rw [if_pos h1]; exact select_index_num s (-1) (-2)
  · rw [if_neg h1]
    by_cases h2 : (key = 42 ∨ key = CK_NUMPAD_MULTIPLY) ∧ s.multiselect = true
    · rw [if_pos h2]; exact select_index_num s (-1) (-1)
    · rw [if_neg h2]
      by_cases h3 : key_is_minus key = true ∧ s.multiselect = true
      · rw [if_pos h3]; exact select_index_num s (-1) 0
      · rw [if_neg h3]
        cases hscan : scanFindFrom s key (s.get_first_visible false) s.items.length
            s.items.length 0 with
        | some idx =>
          dsimp only
          rw [set_hovered_num, select_index_num]
        | none =>
          dsimp only
          by_cases hm : s.multiselect = true
          · rw [if_pos hm]
            cases hloop : selSecondLoop key qty s.items.length 0 (s, none, none) with
            | mk s2 rest =>
              have hnum : s2.num = s.num := by
                have h := selSecondLoop_num key qty s.items.length 0 (s, none, none)
                rw [hloop] at h
                exact h
              obtain ⟨fst, lst⟩ := rest
              cases fst with
              | none => exact hnum
              | some f =>
                cases lst with
                | none => exact hnum
                | some l =>
                  dsimp only
                  rw [set_hovered_num, snap_preserves_num]
                  exact hnum
          · rw [if_neg hm]

theorem deselect_all_num (s : MenuState) : s.deselect_all.num = s.num := rfl

theorem afterSwitch_spec (s : MenuState) (k : Int) :
    (afterSwitch s k).2 = ⟨true, none, false⟩ ∧
    (isadigit k = true → (afterSwitch s k).1.num = s.num) ∧
    (isadigit k = false → (afterSwitch s k).1.num = -1) := by
  unfold afterSwitch
  refine ⟨rfl, fun hd => ?_, fun hnd => ?_⟩
  · rw [if_pos hd]
  · rw [if_neg (by rw [hnd]; simp)]

theorem defaultTail_spec (s3 : MenuState) (hooks : MenuHooks) (k : Int) :
    ((defaultTail s3 hooks k).2.executed = none) ∧
    (isadigit k = true → (defaultTail s3 hooks k).1.num = s3.num) ∧
    (isadigit k = false → (defaultTail s3 hooks k).2.ret = true →
      (defaultTail s3 hooks k).1.num = -1 ∨ (defaultTail s3 hooks k).2.actionPath = true) := by
  unfold defaultTail
  dsimp only
  by_cases c2 : s3.sel.length = 1 ∧ s3.singleselect = true
  · rw [if_pos c2]
    refine ⟨rfl, fun _ => ?_, fun _ _ => Or.inr rfl⟩
    dsimp only
    split_ifs <;> rfl
  · rw [if_neg c2]
    by_cases c3 : s3.anyPrintable = true ∧ (¬ isadigit k = true ∨ s3.noSelectQty = true)
    · rw [if_pos c3]
      exact ⟨rfl, fun _ => rfl, fun _ h => (Bool.false_ne_true h).elim⟩
    · rw [if_neg c3]
      exact ⟨(afterSwitch_spec s3 k).1 ▸ rfl, (afterSwitch_spec s3 k).2.1,
        fun hnd _ => Or.inl ((afterSwitch_spec s3 k).2.2 hnd)⟩

theorem defaultBranch_spec (s : MenuState) (hooks : MenuHooks) (k : Int) :
    ((defaultBranch s hooks k).2.executed = none) ∧
    (isadigit k = true → (defaultBranch s hooks k).1.num = s.num) ∧
    (isadigit k = false → (defaultBranch s hooks k).2.ret = true →
      (defaultBranch s hooks k).1.num = -1 ∨ (defaultBranch s hooks k).2.actionPath = true) := by
  unfold defaultBranch
  dsimp only
  by_cases c1 : ¬ (s.singleselect = true ∨ s.multiselect = true)
  · rw [if_pos c1]
    exact ⟨rfl, fun _ => rfl, fun _ h => (Bool.false_ne_true h).elim⟩
  · rw [if_neg c1]
    refine ⟨(defaultTail_spec _ hooks k).1, fun hd => ?_, (defaultTail_spec _ hooks k).2.2⟩
    rw [(defaultTail_spec _ hooks k).2.1 hd]
    exact select_items_num { s with lastch := k } k s.num

theorem processKeySwitch_spec (s : MenuState) (hooks : MenuHooks) (k : Int) :
    ((processKeySwitch s hooks k).2.executed = none) ∧
    (isadigit k = true → (processKeySwitch s hooks k).1.num = s.num) ∧
    (isadigit k = false → (processKeySwitch s hooks k).2.ret = true →
      k ≠ CK_REDRAW → k ≠ 0 →
      (processKeySwitch s hooks k).1.num = -1 ∨
        (processKeySwitch s hooks k).2.actionPath = true) := by
  unfold processKeySwitch
  by_cases b1 : k = CK_REDRAW
  · rw [if_pos b1]
    exact ⟨rfl, fun _ => rfl, fun _ _ hr _ => absurd b1 hr⟩
  · rw [if_neg b1]
    by_cases b2 : k = 0
    · rw [if_pos b2]
      exact ⟨rfl, fun _ => rfl, fun _ _ _ h0 => absurd b2 h0⟩
    · rw [if_neg b2]
      by_cases b3 : (k = CK_MOUSE_B1 ∨ k = CK_MOUSE_CLICK) ∧ s.noselect = false
      · rw [if_pos b3]
        exact ⟨(afterSwitch_spec s k).1 ▸ rfl, (afterSwitch_spec s k).2.1,
          fun hnd _ _ _ => Or.inl ((afterSwitch_spec s k).2.2 hnd)⟩
      · rw [if_neg b3]
        by_cases b4 : k = CK_MOUSE_B1 ∨ k = CK_MOUSE_CLICK ∨ k = 46 ∨ k = CK_NUMPAD_DECIMAL
        · rw [if_pos b4]
          dsimp only
          refine ⟨(afterSwitch_spec _ k).1 ▸ rfl, fun hd => ?_,
            fun hnd _ _ _ => Or.inl ((afterSwitch_spec _ k).2.2 hnd)⟩
          rw [(afterSwitch_spec _ k).2.1 hd]
          split_ifs <;> rfl
        · rw [if_neg b4]
          by_cases b5 : k = CK_ENTER ∨ k = CK_NUMPAD_ENTER
          · rw [if_pos b5]
            by_cases b6 : s.singleselect = true ∧ s.last_hovered ≥ 0
            · rw [if_pos b6]
              exact ⟨(defaultBranch_spec _ hooks k).1, (defaultBranch_spec _ hooks k).2.1,
                fun hnd hret _ _ => (defaultBranch_spec _ hooks k).2.2 hnd hret⟩
            · rw [if_neg b6]
              by_cases b7 : ¬ s.preselected = true ∨ s.sel ≠ []
              · rw [if_pos b7]
                exact ⟨rfl, fun _ => rfl, fun _ h _ _ => (Bool.false_ne_true h).elim⟩
              · rw [if_neg b7]
                exact ⟨(defaultBranch_spec s hooks k).1, (defaultBranch_spec s hooks k).2.1,
                  fun hnd hret _ _ => (defaultBranch_spec s hooks k).2.2 hnd hret⟩
          · rw [if_neg b5]
            exact ⟨(defaultBranch_spec s hooks k).1, (defaultBranch_spec s hooks k).2.1,
              fun hnd hret _ _ => (defaultBranch_spec s hooks k).2.2 hnd hret⟩

/-- C7 (counterexample): the `CK_REDRAW` pseudo-key is a non-digit key on
which the menu continues (`process_key` returns `true`), yet the quantity
accumulator is *not* reset: its early `return true` (menu.cc:1623-1624)
skips the reset at menu.cc:1716-1717, so `num` stays at 5. -/
theorem process_key_quantity_counterexample :
    let e : MenuEntry := ⟨MenuLevel.item, [97], 1, 0, false, false, false⟩
    let s : MenuState := ⟨[e], true, false, false, false, false, false, false,
      false, false, false, false, true, 5, 0, [], -1, 0, 5, -1, true⟩
    let hooks : MenuHooks := ⟨fun k => k, fun _ => none, false, fun _ => false⟩
    let r := s.process_key hooks (fun _ t => (t, true)) CK_REDRAW
    isadigit (s.transformedKey hooks CK_REDRAW) = false ∧
      r.2.ret = true ∧ r.1.num = 5 ∧ (5 : Int) ≠ -1 := by
  decide

/-- C7 (amended): in the per-key pipeline, (1) if the menu allows quantity
prefixes (`MF_NO_SELECT_QTY` and `MF_NOSELECT` both clear), the menu is not
in the empty-and-not-shown state, and the (filtered) key is a digit, then
the digit is accumulated into the quantity accumulator — restarting from
the digit when the accumulator exceeds 999 or is unset — and no command is
produced or executed for that key; (2) after processing any non-digit key
on which the menu continues, the accumulator is reset to -1, except for
the redraw pseudo-key `CK_REDRAW`, the NUL key, and a SingleSelect
selection whose action reports handled while the menu continues. -/
theorem process_key_quantity_pipeline (s : MenuState) (hooks : MenuHooks)
    (cmdExec : Nat → MenuState → MenuState × Bool) (keyin : Int) :
    ((¬ (s.showEmpty = false ∧ s.items = [])) →
      s.noSelectQty = false → s.noselect = false →
      isadigit (s.transformedKey hooks keyin) = true →
      (s.process_key hooks cmdExec keyin).2.executed = none ∧
      (s.process_key hooks cmdExec keyin).1.num =
        (if s.num > 999 ∨ s.num = -1 then s.transformedKey hooks keyin - 48
         else s.num * 10 + (s.transformedKey hooks keyin - 48))) ∧
    (isadigit (s.transformedKey hooks keyin) = false →
      (s.process_key hooks cmdExec keyin).2.ret = true →
      s.transformedKey hooks keyin ≠ CK_REDRAW →
      s.transformedKey hooks keyin ≠ 0 →
      (s.process_key hooks cmdExec keyin).2.actionPath = false →
      (s.process_key hooks cmdExec keyin).1.num = -1) := by
  constructor
  · intro hne hq1 hq2 hd
    have heq : s.process_key hooks cmdExec keyin =
        processKeySwitch
          { s with num := if (if s.num > 999 then -1 else s.num) = -1
              then s.transformedKey hooks keyin - 48
              else (if s.num > 999 then -1 else s.num) * 10 +
                (s.transformedKey hooks keyin - 48) }
          hooks (s.transformedKey hooks keyin) := by
      unfold MenuState.process_key
      rw [if_neg hne]
      dsimp only
      rw [if_pos ⟨hq1, hq2, hd⟩]
    rw [heq]
    refine ⟨(processKeySwitch_spec _ hooks _).1, ?_⟩
    rw [(processKeySwitch_spec _ hooks _).2.1 hd]
    show (if (if s.num > 999 then -1 else s.num) = -1
        then s.transformedKey hooks keyin - 48
        else (if s.num > 999 then -1 else s.num) * 10 +
          (s.transformedKey hooks keyin - 48)) = _
    split_ifs <;> omega
  · intro hnd hret hnr hn0 hap
    by_cases hemp : s.showEmpty = false ∧ s.items = []
    · have heq : s.process_key hooks cmdExec keyin =
          ({ s with lastch := keyin }, ⟨false, none, false⟩) := by
        unfold MenuState.process_key
        rw [if_pos hemp]
      rw [heq] at hret
      exact (Bool.false_ne_true hret).elim
    · have hdig : ¬ (s.noSelectQty = false ∧ s.noselect = false ∧
          isadigit (s.transformedKey hooks keyin) = true) := by
        intro h
        rw [hnd] at h
        exact (Bool.false_ne_true h.2.2).elim
      cases hg : s.get_command hooks (s.transformedKey hooks keyin) with
      | some cmd =>
        have heq : s.process_key hooks cmdExec keyin =
            ({ (cmdExec cmd s).1 with num := -1 },
             ⟨(cmdExec cmd s).2, some cmd, false⟩) := by
          unfold MenuState.process_key
          rw [if_neg hemp]
          dsimp only
          rw [if_neg hdig, hg]
        rw [heq]
      | none =>
        have heq : s.process_key hooks cmdExec keyin =
            processKeySwitch s hooks (s.transformedKey hooks keyin) := by
          unfold MenuState.process_key
          rw [if_neg hemp]
          dsimp only
          rw [if_neg hdig, hg]
        rw [heq] at hret hap ⊢
        rcases (processKeySwitch_spec s hooks _).2.2 hnd hret hnr hn0 with h | h
        · exact h
        · rw [hap] at h
          exact (Bool.false_ne_true h).elim

theorem process_key_quantity_pipeline_witness :
    let e : MenuEntry := ⟨MenuLevel.item, [97], 1, 0, false, false, false⟩
    let s : MenuState := ⟨[e], true, false, false, false, false, false, false,
      false, false, false, false, true, 5, 0, [], -1, 0, 5, -1, true⟩
    let hooks : MenuHooks := ⟨fun k => k, fun _ => none, false, fun _ => false⟩
    let ce : Nat → MenuState → MenuState × Bool := fun _ t => (t, true)
    (s.process_key hooks ce 55).2.executed = none ∧
    (s.process_key hooks ce 55).1.num =
      (if s.num > 999 ∨ s.num = -1 then s.transformedKey hooks 55 - 48
       else s.num * 10 + (s.transformedKey hooks 55 - 48)) := by
  intro e s hooks ce
  exact (process_key_quantity_pipeline s hooks ce 55).1 (by decide) (by decide)
    (by decide) (by decide)

/-! ### The layout engine (C1, C3) — tile (USE_TILE_LOCAL) configuration

`UIMenu::do_layout` and `UIMenu::get_max_viewport_height` exist in the
tile build.  Font measurement (`char_height`, `string_width`, `split`,
`string_height`) is an external capability (spec §6); each entry carries
the measured values as data: its text width, whether its tile list is
nonempty, whether `_has_hotkey_prefix` holds of its text, the width of the
5-character hotkey preface, and the wrapped-text heights as functions of
the wrapping width. -/

/-- The per-entry inputs of `UIMenu::do_layout`: the fields of
`MenuItemInfo` that feed the layout (heading flag, tiles), plus the
font-measurement oracle values for the entry's text. -/
structure LEntry where
  heading : Bool
  textWidth : Nat
  hasTiles : Bool
  hotkeyPref : Bool
  headerWidth : Nat
  splitFullH : Int → Nat
  splitStripH : Int → Nat

/-- The per-entry outputs of `UIMenu::do_layout`: the geometry fields of
`MenuItemInfo` plus the heading flag (set earlier by `update_item`). -/
structure ItemInfo where
  x : Int
  y : Int
  row : Nat
  column : Int
  heading : Bool
deriving DecidableEq, Repr

instance : Inhabited ItemInfo := ⟨⟨0, 0, 0, 0, false⟩⟩

/-- The parameters of a `do_layout` call: the menu width `mw`, the column
count, `m_min_col_width`, the font character height, `m_draw_tiles`, and
the `MF_NO_WRAP_ROWS` flag. -/
structure LayoutParams where
  mw : Int
  num_columns : Int
  minColWidth : Int
  textHeight : Nat
  drawTiles : Bool
  noWrapRows : Bool

def item_pad : Int := 2

def pad_right : Int := 10

/-- The running state of the layout loop (menu.cc:295-301). -/
structure LayoutSt where
  column : Int
  columnWidth : Int
  rowHeight : Int
  height : Int
  rowHeights : List Int
  infos : List ItemInfo
  scrollContext : Int

/-- One iteration of the loop of `UIMenu::do_layout` (menu.cc:303-376) for
entry number `i`.  C++ truncating `%` and `/` are `Int.tmod`/`Int.tdiv`. -/
def layoutStep (p : LayoutParams) (i : Nat) (e : LEntry) (s : LayoutSt) : LayoutSt :=
  let maxColW := Int.tdiv p.mw p.num_columns
  let th : Int := p.textHeight
  let col : Int := if e.heading then 0 else Int.tmod (s.column + 1) p.num_columns
  let pushed := col = 0
  let rhClosed := s.rowHeight + (if s.rowHeight = 0 then 0 else 2 * item_pad)
  let height1 := if pushed then s.height + rhClosed else s.height
  let rowHeights1 := if pushed then s.rowHeights ++ [s.height + rhClosed] else s.rowHeights
  let scroll1 := if pushed then max s.scrollContext rhClosed else s.scrollContext
  let rowHeight1 : Int := if pushed then 0 else s.rowHeight
  let rowIdx := rowHeights1.length - 1
  if e.heading then
    let rh2 := th + (if i = 0 then 5 else 10)
    let rh3 := if p.drawTiles = true ∧ (e.textWidth : Int) > p.mw
               then max rh2 (e.splitFullH p.mw : Int) else rh2
    { column := p.num_columns - 1, columnWidth := s.columnWidth,
      rowHeight := rh3, height := height1, rowHeights := rowHeights1,
      infos := s.infos ++ [⟨0, height1, rowIdx, col, true⟩],
      scrollContext := scroll1 }
  else
    let indent : Int := if p.drawTiles then 38 else 0
    let ih0 : Int := max th (if e.hasTiles then 32 else 0)
    let needWrap := p.noWrapRows = false ∧ (e.textWidth : Int) > maxColW - indent - pad_right
    let textSx := if needWrap ∧ e.hotkeyPref = true then indent + (e.headerWidth : Int)
                  else indent
    let ih : Int :=
      if needWrap then
        let w := maxColW - textSx - pad_right
        let splitH : Int := if e.hotkeyPref = true then e.splitStripH w else e.splitFullH w
        max ih0 (min splitH (2 * th))
      else ih0
    { column := col,
      columnWidth := max s.columnWidth (textSx + (e.textWidth : Int) + pad_right),
      rowHeight := max rowHeight1 ih,
      height := height1, rowHeights := rowHeights1,
      infos := s.infos ++ [⟨indent, height1, rowIdx, col, false⟩],
      scrollContext := scroll1 }

def layoutLoop (p : LayoutParams) : Nat → List LEntry → LayoutSt → LayoutSt
  | _, [], s => s
  | i, e :: rest, s => layoutLoop p (i + 1) rest (layoutStep p i e s)

/-- The result of `UIMenu::do_layout`: `item_info`, `row_heights`,
`m_height`, `m_scroll_context` and `m_nat_column_width`. -/
structure LayoutResult where
  item_info : List ItemInfo
  row_heights : List Int
  m_height : Int
  m_scroll_context : Int
  m_nat_column_width : Int

/-- `UIMenu::do_layout` (menu.cc:289-385): the loop over entries followed
by the epilogue that closes the last row (menu.cc:377-384).
`m_scroll_context` starts from 0 (a fresh layout). -/
def do_layout (p : LayoutParams) (entries : List LEntry) : LayoutResult :=
  let minColumnWidth : Int := if p.minColWidth > 0 then p.minColWidth else 400
  let s0 : LayoutSt := ⟨-1, 0, 0, 0, [], [], 0⟩
  let s := layoutLoop p 0 entries s0
  let rhF := s.rowHeight + (if s.rowHeight = 0 then 0 else 2 * item_pad)
  let height := s.height + rhF
  { item_info := s.infos,
    row_heights := s.rowHeights ++ [height],
    m_height := height,
    m_scroll_context := max s.scrollContext rhF,
    m_nat_column_width :=
      max minColumnWidth (min (s.columnWidth + 2 * item_pad) (Int.tdiv p.mw p.num_columns)) }

def infoAt (l : List ItemInfo) (k : Nat) : ItemInfo := l.getD k default

def cnt0 (l : List ItemInfo) : Nat := (l.filter fun e => decide (e.column = 0)).length

def rhAt (rh : List Int) (r : Nat) : Int := rh.getD r 0

theorem cnt0_append (l : List ItemInfo) (a : ItemInfo) :
    cnt0 (l ++ [a]) = cnt0 l + (if a.column = 0 then 1 else 0) := by
  unfold cnt0
  rw [List.filter_append, List.length_append]
  congr 1
  by_cases h : a.column = 0 <;> simp [h]

theorem infoAt_append_lt (l : List ItemInfo) (a : ItemInfo) (k : Nat) (h : k < l.length) :
    infoAt (l ++ [a]) k = infoAt l k := by
  unfold infoAt
  exact List.getD_append _ _ _ _ h

theorem infoAt_append_self (l : List ItemInfo) (a : ItemInfo) :
    infoAt (l ++ [a]) l.length = a := by
  unfold infoAt
  rw [List.getD_append_right _ _ _ _ le_rfl]
  simp

theorem rhAt_append_lt (rh : List Int) (a : Int) (r : Nat) (h : r < rh.length) :
    rhAt (rh ++ [a]) r = rhAt rh r := by
  unfold rhAt
  exact List.getD_append _ _ _ _ h

theorem rhAt_append_self (rh : List Int) (a : Int) :
    rhAt (rh ++ [a]) rh.length = a := by
  unfold rhAt
  rw [List.getD_append_right _ _ _ _ le_rfl]
  simp

theorem take_append_le (l : List ItemInfo) (a : ItemInfo) (n : Nat) (h : n ≤ l.length) :
    (l ++ [a]).take n = l.take n := List.take_append_of_le_length h

theorem take_append_full (l : List ItemInfo) (a : ItemInfo) :
    (l ++ [a]).take (l.length + 1) = l ++ [a] := by
  apply List.take_of_length_le
  simp

theorem tmod_id (a C : Int) (h0 : 0 ≤ a) (h1 : a < C) : Int.tmod a C = a := by
  rw [Int.tmod_eq_emod h0 (le_trans h0 (le_of_lt h1))]
  exact Int.emod_eq_of_lt h0 h1

theorem getLast?_eq_infoAt (l : List ItemInfo) (hne : l ≠ []) :
    l.getLast? = some (infoAt l (l.length - 1)) := by
  rw [List.getLast?_eq_get?]
  unfold infoAt
  rw [List.getD_eq_get?]
  cases h : l.get? (l.length - 1) with
  | none =>
      exfalso
      rw [List.get?_eq_none] at h
      have : l.length ≠ 0 := fun h0 => hne (List.length_eq_zero.mp h0)
      omega
  | some a => rfl

theorem getLast?_eq_rhAt (l : List Int) (hne : l ≠ []) :
    l.getLast? = some (rhAt l (l.length - 1)) := by
  rw [List.getLast?_eq_get?]
  unfold rhAt
  rw [List.getD_eq_get?]
  cases h : l.get? (l.length - 1) with
  | none =>
      exfalso
      rw [List.get?_eq_none] at h
      have : l.length ≠ 0 := fun h0 => hne (List.length_eq_zero.mp h0)
      omega
  | some a => rfl

theorem cnt0_take_le (l : List ItemInfo) (m : Nat) : cnt0 (l.take m) ≤ cnt0 l := by
  unfold cnt0
  exact ((l.take_sublist m).filter _).length_le

theorem cnt0_take_mono (l : List ItemInfo) (m n : Nat) (h : m ≤ n) :
    cnt0 (l.take m) ≤ cnt0 (l.take n) := by
  have : l.take m = (l.take n).take m := by
    rw [List.take_take, Nat.min_eq_left h]
  rw [this]
  exact cnt0_take_le _ m

theorem take_succ_append (l : List ItemInfo) (k : Nat) (h : k < l.length) :
    l.take (k + 1) = l.take k ++ [infoAt l k] := by
  rw [List.take_succ]
  congr 1
  unfold infoAt
  rw [List.getD_eq_get?]
  cases hg : l.get? k with
  | none =>
      exfalso
      rw [List.get?_eq_none] at hg
      omega
  | some a =>
      rw [List.get?_eq_getElem?] at hg
      rw [hg]
      rfl

/-- The row-closing increment of `do_layout` (menu.cc:310, 377):
`row_height += row_height == 0 ? 0 : 2*item_pad`. -/
def rhC (s : LayoutSt) : Int := s.rowHeight + (if s.rowHeight = 0 then 0 else 2 * item_pad)

theorem rhC_ge_rowHeight (s : LayoutSt) : s.rowHeight ≤ rhC s := by
  unfold rhC item_pad
  split_ifs <;> omega

theorem rhC_nonneg (s : LayoutSt) (h : 0 ≤ s.rowHeight) : 0 ≤ rhC s :=
  le_trans h (rhC_ge_rowHeight s)

/-- The invariant of the layout loop of `do_layout`, at iteration
boundaries: `C` is the column count, `th` the font character height. -/
structure LoopInv (C : Int) (th : Nat) (s : LayoutSt) : Prop where
  colLB : -1 ≤ s.column
  colUB : s.column < C
  rhNN : 0 ≤ s.rowHeight
  rhTH : s.infos ≠ [] → (th : Int) ≤ s.rowHeight
  initE : s.infos = [] → s.rowHeight = 0 ∧ s.height = 0 ∧ s.rowHeights = [] ∧ s.column = -1
  emptyH : s.rowHeights = [] → s.infos = []
  lastH : s.rowHeights ≠ [] → s.rowHeights.getLast? = some s.height
  sorted : ∀ u, u + 1 < s.rowHeights.length →
    rhAt s.rowHeights u + (th : Int) ≤ rhAt s.rowHeights (u + 1)
  lenCnt : s.rowHeights.length = cnt0 s.infos
  rowEq : ∀ k, k < s.infos.length →
    (infoAt s.infos k).row + 1 = cnt0 (s.infos.take (k + 1))
  yEq : ∀ k, k < s.infos.length → (infoAt s.infos k).row < s.rowHeights.length ∧
    rhAt s.rowHeights (infoAt s.infos k).row = (infoAt s.infos k).y
  colRange : ∀ k, k < s.infos.length →
    0 ≤ (infoAt s.infos k).column ∧ (infoAt s.infos k).column < C
  headCol : ∀ k, k < s.infos.length → (infoAt s.infos k).heading = true →
    (infoAt s.infos k).column = 0
  colSucc : ∀ k, k + 1 < s.infos.length → (infoAt s.infos (k + 1)).column ≠ 0 →
    (infoAt s.infos (k + 1)).column = (infoAt s.infos k).column + 1
  colLast : ∀ li, s.infos.getLast? = some li →
    s.column = (if li.heading = true then C - 1 else li.column)

theorem infos_ne_of_rh (C : Int) (th : Nat) (s : LayoutSt) (hinv : LoopInv C th s)
    (h : s.rowHeights ≠ []) : s.infos ≠ [] :=
  fun h0 => h ((hinv.initE h0).2.2.1)

theorem rhC_ge_th (C : Int) (th : Nat) (s : LayoutSt) (hinv : LoopInv C th s)
    (h : s.infos ≠ []) : (th : Int) ≤ rhC s :=
  le_trans (hinv.rhTH h) (rhC_ge_rowHeight s)

theorem step_inv_push (C : Int) (th : Nat) (s : LayoutSt) (hd : Bool)
    (cw rh x sc : Int)
    (hC : 1 ≤ C) (hinv : LoopInv C th s)
    (hrh0 : 0 ≤ rh) (hrhth : (th : Int) ≤ rh) :
    LoopInv C th
      { column := if hd = true then C - 1 else 0, columnWidth := cw, rowHeight := rh,
        height := s.height + rhC s,
        rowHeights := s.rowHeights ++ [s.height + rhC s],
        infos := s.infos ++ [⟨x, s.height + rhC s,
          (s.rowHeights ++ [s.height + rhC s]).length - 1, 0, hd⟩],
        scrollContext := sc } := by
  have hridx : (s.rowHeights ++ [s.height + rhC s]).length - 1 = s.rowHeights.length := by
    simp
  refine ⟨?_, ?_, hrh0, fun _ => hrhth, ?_, ?_, ?_, ?_, ?_, ?_, ?_, ?_, ?_, ?_, ?_⟩
  · dsimp only
    split_ifs <;> omega
  · dsimp only
    split_ifs <;> omega
  · intro h
    exact absurd h (by simp)
  · intro h
    exact absurd h (by simp)
  · intro _
    dsimp only
    rw [List.getLast?_concat]
  · intro u hu
    dsimp only at hu ⊢
    simp only [List.length_append, List.length_cons, List.length_nil] at hu
    by_cases hlt : u + 1 < s.rowHeights.length
    · rw [rhAt_append_lt _ _ _ (by omega), rhAt_append_lt _ _ _ hlt]
      exact hinv.sorted u hlt
    · have hu1 : u + 1 = s.rowHeights.length := by omega
      have hne : s.rowHeights ≠ [] := by
        intro h0
        rw [h0] at hu1
        simp at hu1
      have hinfne := infos_ne_of_rh C th s hinv hne
      have hth : (th : Int) ≤ rhC s := rhC_ge_th C th s hinv hinfne
      have hlast := hinv.lastH hne
      rw [getLast?_eq_rhAt _ hne] at hlast
      have heq := Option.some.inj hlast
      have h1 : rhAt (s.rowHeights ++ [s.height + rhC s]) u = s.height := by
        rw [rhAt_append_lt _ _ _ (by omega)]
        have hu0 : u = s.rowHeights.length - 1 := by omega
        rw [hu0, heq]
      have h2 : rhAt (s.rowHeights ++ [s.height + rhC s]) (u + 1) = s.height + rhC s := by
        rw [hu1, rhAt_append_self]
      rw [h1, h2]
      omega
  · dsimp only
    rw [List.length_append, cnt0_append]
    simp [hinv.lenCnt]
  · intro k hk
    dsimp only at hk ⊢
    simp only [List.length_append, List.length_cons, List.length_nil] at hk
    by_cases hlt : k < s.infos.length
    · rw [infoAt_append_lt _ _ _ hlt, take_append_le _ _ _ (by omega)]
      exact hinv.rowEq k hlt
    · have hk0 : k = s.infos.length := by omega
      rw [hk0, infoAt_append_self, take_append_full]
      rw [cnt0_append]
      simp [hridx, hinv.lenCnt]
  · intro k hk
    dsimp only at hk ⊢
    simp only [List.length_append, List.length_cons, List.length_nil] at hk
    by_cases hlt : k < s.infos.length
    · rw [infoAt_append_lt _ _ _ hlt]
      obtain ⟨h1, h2⟩ := hinv.yEq k hlt
      constructor
      · simp only [List.length_append, List.length_cons, List.length_nil]
        omega
      · rw [rhAt_append_lt _ _ _ h1]
        exact h2
    · have hk0 : k = s.infos.length := by omega
      rw [hk0, infoAt_append_self]
      constructor
      · simp [hridx]
      · show rhAt (s.rowHeights ++ [s.height + rhC s])
          ((s.rowHeights ++ [s.height + rhC s]).length - 1) = s.height + rhC s
        rw [hridx, rhAt_append_self]
  · intro k hk
    dsimp only at hk ⊢
    simp only [List.length_append, List.length_cons, List.length_nil] at hk
    by_cases hlt : k < s.infos.length
    · rw [infoAt_append_lt _ _ _ hlt]
      exact hinv.colRange k hlt
    · have hk0 : k = s.infos.length := by omega
      rw [hk0, infoAt_append_self]
      refine ⟨le_refl 0, ?_⟩
      show (0:Int) < C
      omega
  · intro k hk hh
    dsimp only at hk ⊢
    simp only [List.length_append, List.length_cons, List.length_nil] at hk
    by_cases hlt : k < s.infos.length
    · rw [infoAt_append_lt _ _ _ hlt] at hh ⊢
      exact hinv.headCol k hlt hh
    · have hk0 : k = s.infos.length := by omega
      rw [hk0, infoAt_append_self]
  · intro k hk hne
    dsimp only at hk hne ⊢
    simp only [List.length_append, List.length_cons, List.length_nil] at hk
    by_cases hlt : k + 1 < s.infos.length
    · rw [infoAt_append_lt _ _ _ hlt] at hne ⊢
      rw [infoAt_append_lt _ _ _ (by omega)]
      exact hinv.colSucc k hlt hne
    · have hk1 : k + 1 = s.infos.length := by omega
      rw [hk1, infoAt_append_self] at hne
      exact absurd rfl hne
  · intro li hli
    dsimp only at hli ⊢
    rw [List.getLast?_concat] at hli
    have h := Option.some.inj hli
    rw [← h]

theorem step_inv_nopush (C : Int) (th : Nat) (s : LayoutSt)
    (cw rh x sc col : Int)
    (hC : 1 ≤ C) (hinv : LoopInv C th s)
    (hcol : col = Int.tmod (s.column + 1) C) (hcol0 : ¬ col = 0)
    (hrh0 : 0 ≤ rh) (hrhth : (th : Int) ≤ rh) :
    LoopInv C th
      { column := col, columnWidth := cw, rowHeight := rh,
        height := s.height,
        rowHeights := s.rowHeights,
        infos := s.infos ++ [⟨x, s.height, s.rowHeights.length - 1, col, false⟩],
        scrollContext := sc } := by
  have hinfne : s.infos ≠ [] := by
    intro h0
    have hcm1 := (hinv.initE h0).2.2.2
    rw [hcm1] at hcol
    simp [Int.zero_tmod] at hcol
    exact hcol0 hcol
  have hrhne : s.rowHeights ≠ [] := by
    intro h0
    exact hinfne (hinv.emptyH h0)
  have hlen1 : 1 ≤ s.rowHeights.length := by
    cases h : s.rowHeights with
    | nil => exact absurd h hrhne
    | cons a l => simp
  have hilen1 : 1 ≤ s.infos.length := by
    cases h : s.infos with
    | nil => exact absurd h hinfne
    | cons a l => simp
  have hcub : s.column + 1 ≤ C := by
    have := hinv.colUB
    omega
  have hclb : 0 ≤ s.column + 1 := by
    have := hinv.colLB
    omega
  have hcltC : s.column + 1 < C := by
    rcases lt_or_eq_of_le hcub with h | h
    · exact h
    · exfalso
      rw [h, Int.tmod_self] at hcol
      exact hcol0 hcol
  have hcolval : col = s.column + 1 := by
    rw [hcol]
    exact tmod_id _ _ hclb hcltC
  have hlast := hinv.lastH hrhne
  rw [getLast?_eq_rhAt _ hrhne] at hlast
  have heq := Option.some.inj hlast
  have hli0 := hinv.colLast (infoAt s.infos (s.infos.length - 1))
    (getLast?_eq_infoAt s.infos hinfne)
  have hcprev : col = (infoAt s.infos (s.infos.length - 1)).column + 1 := by
    by_cases hb : (infoAt s.infos (s.infos.length - 1)).heading = true
    · exfalso
      rw [if_pos hb] at hli0
      omega
    · rw [if_neg hb] at hli0
      rw [hcolval, hli0]
  refine ⟨?_, ?_, hrh0, fun _ => hrhth, ?_, ?_, fun _ => hinv.lastH hrhne, hinv.sorted,
    ?_, ?_, ?_, ?_, ?_, ?_, ?_⟩
  · show -1 ≤ col
    omega
  · show col < C
    omega
  · intro h
    exact absurd h (by simp)
  · intro h
    exact absurd h hrhne
  · dsimp only
    rw [cnt0_append]
    dsimp only
    rw [if_neg hcol0, hinv.lenCnt]
    omega
  · intro k hk
    dsimp only at hk ⊢
    simp only [List.length_append, List.length_cons, List.length_nil] at hk
    by_cases hlt : k < s.infos.length
    · rw [infoAt_append_lt _ _ _ hlt, take_append_le _ _ _ (by omega)]
      exact hinv.rowEq k hlt
    · have hk0 : k = s.infos.length := by omega
      rw [hk0, infoAt_append_self, take_append_full, cnt0_append]
      dsimp only
      rw [if_neg hcol0, ← hinv.lenCnt]
      omega
  · intro k hk
    dsimp only at hk ⊢
    simp only [List.length_append, List.length_cons, List.length_nil] at hk
    by_cases hlt : k < s.infos.length
    · rw [infoAt_append_lt _ _ _ hlt]
      exact hinv.yEq k hlt
    · have hk0 : k = s.infos.length := by omega
      rw [hk0, infoAt_append_self]
      constructor
      · show s.rowHeights.length - 1 < s.rowHeights.length
        omega
      · show rhAt s.rowHeights (s.rowHeights.length - 1) = s.height
        exact heq
  · intro k hk
    dsimp only at hk ⊢
    simp only [List.length_append, List.length_cons, List.length_nil] at hk
    by_cases hlt : k < s.infos.length
    · rw [infoAt_append_lt _ _ _ hlt]
      exact hinv.colRange k hlt
    · have hk0 : k = s.infos.length := by omega
      rw [hk0, infoAt_append_self]
      refine ⟨?_, ?_⟩
      · show (0:Int) ≤ col
        omega
      · show col < C
        omega
  · intro k hk hh
    dsimp only at hk hh ⊢
    simp only [List.length_append, List.length_cons, List.length_nil] at hk
    by_cases hlt : k < s.infos.length
    · rw [infoAt_append_lt _ _ _ hlt] at hh ⊢
      exact hinv.headCol k hlt hh
    · have hk0 : k = s.infos.length := by omega
      rw [hk0, infoAt_append_self] at hh
      exact absurd hh Bool.false_ne_true
  · intro k hk hne
    dsimp only at hk hne ⊢
    simp only [List.length_append, List.length_cons, List.length_nil] at hk
    by_cases hlt : k + 1 < s.infos.length
    · rw [infoAt_append_lt _ _ _ hlt] at hne ⊢
      rw [infoAt_append_lt _ _ _ (by omega)]
      exact hinv.colSucc k hlt hne
    · have hk1 : k + 1 = s.infos.length := by omega
      have hk0 : k = s.infos.length - 1 := by omega
      rw [hk1, infoAt_append_self]
      rw [infoAt_append_lt _ _ _ (by omega)]
      show col = (infoAt s.infos k).column + 1
      rw [hk0]
      exact hcprev
  · intro li hli
    dsimp only at hli ⊢
    rw [List.getLast?_concat] at hli
    have h := Option.some.inj hli
    rw [← h]
    simp

theorem le_ite_max (c : Prop) [inst : Decidable c] (th t m : Int) :
    th ≤ if c then max (max th t) m else max th t := by
  split_ifs
  · exact le_trans (le_max_left th t) (le_max_left _ _)
  · exact le_max_left th t

theorem layoutStep_inv (p : LayoutParams) (i : Nat) (e : LEntry) (s : LayoutSt)
    (hC : 1 ≤ p.num_columns) (hinv : LoopInv p.num_columns p.textHeight s) :
    LoopInv p.num_columns p.textHeight (layoutStep p i e s) := by
  by_cases hh : e.heading = true
  · simp only [layoutStep, hh, eq_self_iff_true, if_true]
    refine step_inv_push p.num_columns p.textHeight s true s.columnWidth _ 0 _ hC hinv ?_ ?_
    · have hn := Int.natCast_nonneg p.textHeight
      split_ifs <;> first
        | omega
        | exact le_trans (by omega) (le_max_left _ _)
    · split_ifs <;> first
        | omega
        | exact le_trans (by omega) (le_max_left _ _)
  · have he : e.heading = false := by
      cases hcase : e.heading
      · rfl
      · exact absurd hcase hh
    by_cases hp : Int.tmod (s.column + 1) p.num_columns = 0
    · simp only [layoutStep, he, Bool.false_eq_true, if_false, hp, eq_self_iff_true, if_true]
      refine step_inv_push p.num_columns p.textHeight s false _ _ _ _ hC hinv ?_ ?_
      · exact le_max_left 0 _
      · exact le_trans (le_ite_max _ _ _ _) (le_max_right _ _)
    · simp only [layoutStep, he, Bool.false_eq_true, if_false, if_neg hp]
      refine step_inv_nopush p.num_columns p.textHeight s _ _ _ _ _ hC hinv rfl hp ?_ ?_
      · exact le_trans hinv.rhNN (le_max_left _ _)
      · exact le_trans (le_ite_max _ _ _ _) (le_max_right _ _)

theorem layoutLoop_inv (p : LayoutParams) (hC : 1 ≤ p.num_columns) :
    ∀ (l : List LEntry) (i : Nat) (s : LayoutSt),
      LoopInv p.num_columns p.textHeight s →
      LoopInv p.num_columns p.textHeight (layoutLoop p i l s) := by
  intro l
  induction l with
  | nil => intro i s h; exact h
  | cons e rest ih =>
      intro i s h
      exact ih (i + 1) (layoutStep p i e s) (layoutStep_inv p i e s hC h)

theorem loopInv_init (C : Int) (th : Nat) (hC : 1 ≤ C) :
    LoopInv C th ⟨-1, 0, 0, 0, [], [], 0⟩ := by
  refine ⟨?_, ?_, ?_, ?_, ?_, ?_, ?_, ?_, ?_, ?_, ?_, ?_, ?_, ?_, ?_⟩
  · exact le_refl _
  · show (-1:Int) < C
    omega
  · exact le_refl _
  · intro h
    exact absurd rfl h
  · intro _
    exact ⟨rfl, rfl, rfl, rfl⟩
  · intro _
    rfl
  · intro h
    exact absurd rfl h
  · intro u hu
    simp at hu
  · rfl
  · intro k hk
    simp at hk
  · intro k hk
    simp at hk
  · intro k hk
    simp at hk
  · intro k hk
    simp at hk
  · intro k hk
    simp at hk
  · intro li hli
    simp at hli

/-- The C1 layout-soundness property of a `do_layout` result: non-heading
entries get a column in `[0, C)`; a heading entry's row is strictly later
than every earlier entry's row (it starts a new row); `row_heights` is
monotonically non-decreasing; and its last element is `m_height`. -/
def layoutSound (p : LayoutParams) (entries : List LEntry) : Prop :=
  (∀ k, k < (do_layout p entries).item_info.length →
     (infoAt (do_layout p entries).item_info k).heading = false →
     0 ≤ (infoAt (do_layout p entries).item_info k).column ∧
     (infoAt (do_layout p entries).item_info k).column < p.num_columns) ∧
  (∀ k, k < (do_layout p entries).item_info.length →
     (infoAt (do_layout p entries).item_info k).heading = true →
     ∀ j, j < k → (infoAt (do_layout p entries).item_info j).row <
       (infoAt (do_layout p entries).item_info k).row) ∧
  (∀ u, u + 1 < (do_layout p entries).row_heights.length →
     rhAt (do_layout p entries).row_heights u ≤
       rhAt (do_layout p entries).row_heights (u + 1)) ∧
  (do_layout p entries).row_heights.getLast? = some (do_layout p entries).m_height

/-- C1: for every entry sequence and every column count C >= 1, the layout
computed by do_layout assigns every non-heading entry a column in [0, C);
every heading entry starts a new row (its row index exceeds that of every
earlier entry); the row-height boundary table is monotonically
non-decreasing; and its last element equals the reported content height
m_height.  (C >= 1 is required: the C++ code divides and takes remainders
by num_columns, which is undefined for 0.) -/
theorem do_layout_sound (p : LayoutParams) (entries : List LEntry)
    (hC : 1 ≤ p.num_columns) : layoutSound p entries := by
  have hinv : LoopInv p.num_columns p.textHeight
      (layoutLoop p 0 entries ⟨-1, 0, 0, 0, [], [], 0⟩) :=
    layoutLoop_inv p hC entries 0 _ (loopInv_init p.num_columns p.textHeight hC)
  unfold layoutSound do_layout
  dsimp only
  revert hinv
  generalize layoutLoop p 0 entries ⟨-1, 0, 0, 0, [], [], 0⟩ = s
  intro hinv
  refine ⟨?_, ?_, ?_, ?_⟩
  · intro k hk _
    exact hinv.colRange k hk
  · intro k hk hhead j hj
    have hrj := hinv.rowEq j (lt_trans hj hk)
    have hrk := hinv.rowEq k hk
    have hc0 := hinv.headCol k hk hhead
    have hsplit : s.infos.take (k + 1) = s.infos.take k ++ [infoAt s.infos k] :=
      take_succ_append _ _ hk
    have hstep : cnt0 (s.infos.take (k + 1)) = cnt0 (s.infos.take k) + 1 := by
      rw [hsplit, cnt0_append, hc0]
      simp
    have hmono : cnt0 (s.infos.take (j + 1)) ≤ cnt0 (s.infos.take k) :=
      cnt0_take_mono _ _ _ (by omega)
    omega
  · intro u hu
    simp only [List.length_append, List.length_cons, List.length_nil] at hu
    have hth : (0:Int) ≤ (p.textHeight : Int) := Int.natCast_nonneg _
    by_cases hlt : u + 1 < s.rowHeights.length
    · rw [rhAt_append_lt _ _ _ (by omega), rhAt_append_lt _ _ _ hlt]
      have := hinv.sorted u hlt
      omega
    · have hu1 : u + 1 = s.rowHeights.length := by omega
      have hne : s.rowHeights ≠ [] := by
        intro h0
        rw [h0] at hu1
        simp at hu1
      have hlast := hinv.lastH hne
      rw [getLast?_eq_rhAt _ hne] at hlast
      have heq := Option.some.inj hlast
      have h1 : rhAt (s.rowHeights ++
          [s.height + (s.rowHeight + if s.rowHeight = 0 then 0 else 2 * item_pad)]) u
          = s.height := by
        rw [rhAt_append_lt _ _ _ (by omega)]
        have hu0 : u = s.rowHeights.length - 1 := by omega
        rw [hu0, heq]
      have h2 : rhAt (s.rowHeights ++
          [s.height + (s.rowHeight + if s.rowHeight = 0 then 0 else 2 * item_pad)]) (u + 1)
          = s.height + (s.rowHeight + if s.rowHeight = 0 then 0 else 2 * item_pad) := by
        rw [hu1, rhAt_append_self]
      rw [h1, h2]
      have hr0 : 0 ≤ rhC s := rhC_nonneg s hinv.rhNN
      unfold rhC at hr0
      omega
  · exact List.getLast?_concat _

def pW : LayoutParams := ⟨800, 2, 0, 14, false, false⟩

def eW : List LEntry :=
  [⟨true, 10, false, false, 0, fun _ => 0, fun _ => 0⟩,
   ⟨false, 10, false, false, 0, fun _ => 0, fun _ => 0⟩,
   ⟨false, 10, true, false, 0, fun _ => 0, fun _ => 0⟩,
   ⟨false, 10, false, false, 0, fun _ => 0, fun _ => 0⟩,
   ⟨false, 10, false, false, 0, fun _ => 0, fun _ => 0⟩]

theorem do_layout_sound_witness : layoutSound pW eW :=
  do_layout_sound pW eW (by decide)

/-! ### `UIMenu::get_max_viewport_height` (C3) -/

def INT_MAX : Int := 2147483647

/-- Count of non-heading (`Item`-carrying) layout entries at indices in
`[a, b)`. -/
def countNH (ii : List ItemInfo) (a b : Nat) : Nat :=
  ((List.range' a (b - a)).filter fun k => (infoAt ii k).heading = false).length

/-- The inner do-while of `get_max_viewport_height` (menu.cc:402-406):
`do { num_items -= !item_info[a++].heading; } while (item_info[a].column != 0)`,
fuel-based.  (C++ `size_t` subtraction is modelled as `Nat` truncation; the
loop keeps `num_items <= 52` so no wrap occurs.) -/
def mvhAdv (ii : List ItemInfo) : Nat → Nat → Nat → Nat × Nat
  | 0, a, ni => (a, ni)
  | fuel + 1, a, ni =>
    let ni2 := ni - (if (infoAt ii a).heading = true then 0 else 1)
    let a2 := a + 1
    if (infoAt ii a2).column = 0 then (a2, ni2) else mvhAdv ii fuel a2 ni2

/-- The loop of `get_max_viewport_height` (menu.cc:392-407), fuel-based:
`a`, `b` are the window ends, `ni` is `num_items`, `acc` the running
minimum.  A state with `ni > 52` makes the C++ loop spin forever; the
model returns `acc` there (such states are unreachable from the entry
state). -/
def mvhLoop (ii : List ItemInfo) (rh : List Int) : Nat → Nat → Nat → Nat → Int → Int
  | 0, _, _, _, acc => acc
  | fuel + 1, a, b, ni, acc =>
    if b < ii.length then
      if ni < 52 then
        mvhLoop ii rh fuel a (b + 1)
          (ni + (if (infoAt ii b).heading = true then 0 else 1)) acc
      else if ni = 52 then
        let item_h := rhAt rh (infoAt ii b).row - rhAt rh (infoAt ii (b - 1)).row
        let delta := item_h + (infoAt ii (b - 1)).y - (infoAt ii a).y
        let p2 := mvhAdv ii (ii.length + 1) a ni
        mvhLoop ii rh fuel p2.1 b p2.2 (min acc delta)
      else acc
    else acc

/-- `UIMenu::get_max_viewport_height` (menu.cc:387-409).  The fuel
`2*|ii| + 2` dominates the loop's iteration count (each iteration either
advances `b` or advances `a`, both bounded by `|ii|`). -/
def get_max_viewport_height (ii : List ItemInfo) (rh : List Int) : Int :=
  mvhLoop ii rh (2 * ii.length + 2) 0 0 0 INT_MAX

/-- `UIMenu::is_visible_item_range` (menu.cc:195-227), tile
(USE_TILE_LOCAL) branch: the first loop finds the first entry whose row
bottom lies below the scroll top (leaving `v_min = 0` if none), the
second continues from there to the first entry whose row top lies at or
below the viewport bottom (leaving `v_max = size` if none); finally
`v_max` is clamped to the entry count. -/
def is_visible_item_range (ii : List ItemInfo) (rh : List Int) (itemsLen : Nat)
    (vph scroll : Int) : Nat × Nat :=
  match (List.range ii.length).find?
      (fun i => decide (rhAt rh ((infoAt ii i).row + 1) > scroll)) with
  | none => (0, min ii.length itemsLen)
  | some i0 =>
    match (List.range' i0 (ii.length - i0)).find?
        (fun i => decide (rhAt rh (infoAt ii i).row ≥ scroll + vph)) with
    | none => (i0, min ii.length itemsLen)
    | some j0 => (i0, min j0 itemsLen)

/-- Number of non-heading entries whose full row span `[row_heights[row],
row_heights[row+1]]` lies inside the viewport `[scroll, scroll + vph]`:
the entries that are *entirely* visible at that scroll position. -/
def countFullVis (ii : List ItemInfo) (rh : List Int) (scroll vph : Int) : Nat :=
  ((List.range ii.length).filter fun k => decide ((infoAt ii k).heading = false ∧
     scroll ≤ rhAt rh (infoAt ii k).row ∧
     rhAt rh ((infoAt ii k).row + 1) ≤ scroll + vph)).length

/-- The C3 page-cap property of a laid-out menu: (a) at any viewport
height up to `get_max_viewport_height`, no scroll position makes more
than 52 non-heading entries fully visible; (b) if fewer than 52
non-heading entries strictly precede the final entry, the returned
height is INT_MAX (unbounded). -/
def pageCap (p : LayoutParams) (entries : List LEntry) : Prop :=
  (∀ scroll vph : Int,
     vph ≤ get_max_viewport_height (do_layout p entries).item_info
       (do_layout p entries).row_heights →
     countFullVis (do_layout p entries).item_info
       (do_layout p entries).row_heights scroll vph ≤ 52) ∧
  (countNH (do_layout p entries).item_info 0
      ((do_layout p entries).item_info.length - 1) ≤ 51 →
   get_max_viewport_height (do_layout p entries).item_info
     (do_layout p entries).row_heights = INT_MAX)

theorem countNH_self (ii : List ItemInfo) (a : Nat) : countNH ii a a = 0 := by
  unfold countNH
  simp

theorem countNH_le (ii : List ItemInfo) (a b : Nat) : countNH ii a b ≤ b - a := by
  unfold countNH
  calc ((List.range' a (b - a)).filter fun k => (infoAt ii k).heading = false).length
      ≤ (List.range' a (b - a)).length := (List.filter_sublist _).length_le
    _ = b - a := List.length_range' _ _ _

theorem countNH_split (ii : List ItemInfo) (a c b : Nat) (h1 : a ≤ c) (h2 : c ≤ b) :
    countNH ii a b = countNH ii a c + countNH ii c b := by
  unfold countNH
  have hlen : b - a = b - c + (c - a) := by omega
  rw [hlen, ← List.range'_append a (c - a) (b - c) 1]
  have hc : a + 1 * (c - a) = c := by omega
  rw [hc, List.filter_append, List.length_append]

theorem countNH_singleton (ii : List ItemInfo) (b : Nat) :
    countNH ii b (b + 1) = if (infoAt ii b).heading = true then 0 else 1 := by
  unfold countNH
  have h1 : b + 1 - b = 1 := by omega
  rw [h1]
  cases hh : (infoAt ii b).heading <;> simp [List.range', hh]

theorem countNH_succ (ii : List ItemInfo) (a b : Nat) (h : a ≤ b) :
    countNH ii a (b + 1) = countNH ii a b +
      (if (infoAt ii b).heading = true then 0 else 1) := by
  rw [countNH_split ii a b (b + 1) h (by omega), countNH_singleton]

theorem countNH_mono (ii : List ItemInfo) (i' i j j' : Nat)
    (h1 : i' ≤ i) (h2 : j ≤ j') : countNH ii i j ≤ countNH ii i' j' := by
  by_cases hij : i ≤ j
  · rw [countNH_split ii i' i j' h1 (by omega)]
    rw [countNH_split ii i j j' hij h2]
    omega
  · have : j - i = 0 := by omega
    unfold countNH
    rw [this]
    simp

/-- Facts about a laid-out menu (`ii` = item_info, `rh` = the final
row_heights including the epilogue element) used by the page-cap
analysis; all are consequences of `LoopInv`. -/
structure LayoutFacts (C : Int) (th : Nat) (ii : List ItemInfo) (rh : List Int) : Prop where
  yRow : ∀ k, k < ii.length → rhAt rh (infoAt ii k).row = (infoAt ii k).y
  rowLt : ∀ k, k < ii.length → (infoAt ii k).row + 1 < rh.length
  sortedTh : ∀ u, u + 1 < rh.length → rhAt rh u + (th : Int) ≤ rhAt rh (u + 1)
  rowMono : ∀ k k', k ≤ k' → k' < ii.length → (infoAt ii k).row ≤ (infoAt ii k').row
  col0 : 0 < ii.length → (infoAt ii 0).column = 0
  colSucc : ∀ k, k + 1 < ii.length → (infoAt ii (k + 1)).column ≠ 0 →
    (infoAt ii (k + 1)).column = (infoAt ii k).column + 1
  colRange : ∀ k, k < ii.length → 0 ≤ (infoAt ii k).column ∧ (infoAt ii k).column < C
  rowSucc0 : ∀ k, k + 1 < ii.length → (infoAt ii (k + 1)).column ≠ 0 →
    (infoAt ii (k + 1)).row = (infoAt ii k).row

theorem rhAt_mono (L : List Int) (c : Int) (hc : 0 ≤ c)
    (hs : ∀ u, u + 1 < L.length → rhAt L u + c ≤ rhAt L (u + 1)) :
    ∀ d u, u + d < L.length → rhAt L u ≤ rhAt L (u + d) := by
  intro d
  induction d with
  | zero => intro u h; exact le_refl _
  | succ d ih =>
      intro u h
      have h1 := ih u (by omega)
      have h2 := hs (u + d) (by omega)
      show rhAt L u ≤ rhAt L (u + d + 1)
      omega

theorem facts_rowValMono (C : Int) (th : Nat) (ii : List ItemInfo) (rh : List Int)
    (hf : LayoutFacts C th ii rh) (k k' : Nat) (hkk : k ≤ k') (hk' : k' < ii.length) :
    rhAt rh (infoAt ii k).row ≤ rhAt rh (infoAt ii k').row := by
  have hm := hf.rowMono k k' hkk hk'
  have hlt := hf.rowLt k' hk'
  have := rhAt_mono rh (th : Int) (Int.natCast_nonneg th) hf.sortedTh
    ((infoAt ii k').row - (infoAt ii k).row) (infoAt ii k).row (by omega)
  have heq : (infoAt ii k).row + ((infoAt ii k').row - (infoAt ii k).row)
      = (infoAt ii k').row := by omega
  rw [heq] at this
  exact this

theorem facts_rowGap (C : Int) (th : Nat) (ii : List ItemInfo) (rh : List Int)
    (hf : LayoutFacts C th ii rh) (k : Nat) (hk : k < ii.length) :
    rhAt rh (infoAt ii k).row + (th : Int) ≤ rhAt rh ((infoAt ii k).row + 1) :=
  hf.sortedTh _ (hf.rowLt k hk)

theorem layoutFacts_of_inv (C : Int) (th : Nat) (s : LayoutSt)
    (hinv : LoopInv C th s) (hne : s.infos ≠ []) :
    LayoutFacts C th s.infos (s.rowHeights ++ [s.height + rhC s]) := by
  have hrhne : s.rowHeights ≠ [] := fun h0 => hne (hinv.emptyH h0)
  have hrl1 : 1 ≤ s.rowHeights.length := by
    cases h : s.rowHeights with
    | nil => exact absurd h hrhne
    | cons a l => simp
  have hlast := hinv.lastH hrhne
  rw [getLast?_eq_rhAt _ hrhne] at hlast
  have hlasteq := Option.some.inj hlast
  refine ⟨?_, ?_, ?_, ?_, ?_, hinv.colSucc, hinv.colRange, ?_⟩
  · intro k hk
    obtain ⟨h1, h2⟩ := hinv.yEq k hk
    rw [rhAt_append_lt _ _ _ h1]
    exact h2
  · intro k hk
    have h1 := (hinv.yEq k hk).1
    simp only [List.length_append, List.length_cons, List.length_nil]
    omega
  · intro u hu
    simp only [List.length_append, List.length_cons, List.length_nil] at hu
    by_cases hlt : u + 1 < s.rowHeights.length
    · rw [rhAt_append_lt _ _ _ (by omega), rhAt_append_lt _ _ _ hlt]
      exact hinv.sorted u hlt
    · have hu1 : u + 1 = s.rowHeights.length := by omega
      have h1 : rhAt (s.rowHeights ++ [s.height + rhC s]) u = s.height := by
        rw [rhAt_append_lt _ _ _ (by omega)]
        have hu0 : u = s.rowHeights.length - 1 := by omega
        rw [hu0, hlasteq]
      have h2 : rhAt (s.rowHeights ++ [s.height + rhC s]) (u + 1) = s.height + rhC s := by
        rw [hu1, rhAt_append_self]
      rw [h1, h2]
      have := rhC_ge_th C th s hinv hne
      omega
  · intro k k' hkk hk'
    have h1 := hinv.rowEq k (by omega)
    have h2 := hinv.rowEq k' hk'
    have h3 := cnt0_take_mono s.infos (k + 1) (k' + 1) (by omega)
    omega
  · intro hlen
    have h := hinv.rowEq 0 hlen
    rw [take_succ_append _ _ hlen, List.take_zero, List.nil_append] at h
    by_cases hc : (infoAt s.infos 0).column = 0
    · exact hc
    · exfalso
      have : cnt0 [infoAt s.infos 0] = 0 := by
        unfold cnt0
        simp [hc]
      omega
  · intro k hk hcne
    have h1 := hinv.rowEq k (by omega)
    have h2 := hinv.rowEq (k + 1) hk
    rw [take_succ_append _ _ hk, cnt0_append] at h2
    rw [if_neg hcne] at h2
    omega

theorem col_run (C : Int) (th : Nat) (ii : List ItemInfo) (rh : List Int)
    (hf : LayoutFacts C th ii rh) (a : Nat) (hca : (infoAt ii a).column = 0) :
    ∀ t, a + t < ii.length →
      (∀ u, 0 < u → u ≤ t → (infoAt ii (a + u)).column ≠ 0) →
      (infoAt ii (a + t)).column = t := by
  intro t
  induction t with
  | zero => intro _ _; exact hca
  | succ t ih =>
      intro hlen hnz
      have h1 : (infoAt ii (a + t + 1)).column ≠ 0 := by
        have := hnz (t + 1) (by omega) (by omega)
        show (infoAt ii (a + t + 1)).column ≠ 0
        have he : a + (t + 1) = a + t + 1 := by omega
        rw [he] at this
        exact this
      have h2 := hf.colSucc (a + t) (by omega) h1
      have h3 := ih (by omega) (fun u hu1 hu2 => hnz u hu1 (by omega))
      show (infoAt ii (a + t + 1)).column = ((t : Int) + 1)
      rw [h2, h3]

theorem next_row_start (C : Int) (th : Nat) (ii : List ItemInfo) (rh : List Int)
    (hf : LayoutFacts C th ii rh) (hC1 : 1 ≤ C) (a : Nat) (ha : a < ii.length)
    (hca : (infoAt ii a).column = 0) :
    ∃ nrs, a < nrs ∧ nrs ≤ a + C.toNat ∧ (infoAt ii nrs).column = 0 ∧
      ∀ m, a < m → m < nrs → (infoAt ii m).column ≠ 0 := by
  have hCn1 : 1 ≤ C.toNat := by omega
  have hex : ∃ t, 0 < t ∧ t ≤ C.toNat ∧ (infoAt ii (a + t)).column = 0 := by
    by_cases hfit : a + C.toNat < ii.length
    · by_contra hno
      push_neg at hno
      have hrun := col_run C th ii rh hf a hca C.toNat hfit
        (fun u hu1 hu2 => hno u hu1 hu2)
      have hcr := (hf.colRange (a + C.toNat) hfit).2
      rw [hrun] at hcr
      have : (C.toNat : Int) = C := Int.toNat_of_nonneg (by omega)
      omega
    · refine ⟨ii.length - a, by omega, by omega, ?_⟩
      have hout : ii.length ≤ a + (ii.length - a) := by omega
      unfold infoAt
      rw [List.getD_eq_default]
      · rfl
      · omega
  classical
  have hexP : ∃ t, 0 < t ∧ (infoAt ii (a + t)).column = 0 := by
    obtain ⟨t, h1, _, h3⟩ := hex
    exact ⟨t, h1, h3⟩
  obtain ⟨tw, htw1, htw2, htw3⟩ := hex
  refine ⟨a + Nat.find hexP, ?_, ?_, ?_, ?_⟩
  · have := (Nat.find_spec hexP).1
    omega
  · have : Nat.find hexP ≤ tw := Nat.find_min' hexP ⟨htw1, htw3⟩
    omega
  · exact (Nat.find_spec hexP).2
  · intro m hm1 hm2
    have hu : m - a < Nat.find hexP := by omega
    have := Nat.find_min hexP hu
    push_neg at this
    have hcm := this (by omega)
    have he : a + (m - a) = m := by omega
    rw [he] at hcm
    exact hcm

theorem mvhAdv_spec (ii : List ItemInfo) :
    ∀ fuel a ni nrs, a < nrs → (infoAt ii nrs).column = 0 →
      (∀ m, a < m → m < nrs → (infoAt ii m).column ≠ 0) →
      nrs ≤ a + fuel →
      mvhAdv ii fuel a ni = (nrs, ni - countNH ii a nrs) := by
  intro fuel
  induction fuel with
  | zero => intro a ni nrs h1 _ _ h4; omega
  | succ fuel ih =>
      intro a ni nrs h1 h2 h3 h4
      simp only [mvhAdv]
      by_cases hstop : (infoAt ii (a + 1)).column = 0
      · have hnr : a + 1 = nrs := by
          by_contra hne
          exact h3 (a + 1) (by omega) (by omega) hstop
        rw [if_pos hstop]
        rw [← hnr, countNH_singleton]
      · rw [if_neg hstop]
        have h1' : a + 1 < nrs := by
          rcases Nat.lt_or_ge (a + 1) nrs with h | h
          · exact h
          · exfalso
            have : a + 1 = nrs := by omega
            rw [this] at hstop
            exact hstop h2
        rw [ih (a + 1) _ nrs h1' h2 (fun m hm1 hm2 => h3 m (by omega) hm2) (by omega)]
        have hsplit : countNH ii a nrs = countNH ii a (a + 1) + countNH ii (a + 1) nrs :=
          countNH_split ii a (a + 1) nrs (by omega) (by omega)
        rw [countNH_singleton] at hsplit
        rw [hsplit, Nat.sub_sub]

theorem row_const (C : Int) (th : Nat) (ii : List ItemInfo) (rh : List Int)
    (hf : LayoutFacts C th ii rh) (a nrs : Nat) (hnrs : nrs < ii.length)
    (hmid : ∀ m, a < m → m < nrs → (infoAt ii m).column ≠ 0) :
    ∀ u, a + u < nrs → (infoAt ii (a + u)).row = (infoAt ii a).row := by
  intro u
  induction u with
  | zero => intro _; rfl
  | succ u ih =>
      intro h
      have h1 : (infoAt ii (a + u + 1)).column ≠ 0 := hmid (a + u + 1) (by omega) (by omega)
      have h2 := hf.rowSucc0 (a + u) (by omega) h1
      have h3 := ih (by omega)
      show (infoAt ii (a + u + 1)).row = (infoAt ii a).row
      rw [h2, h3]

theorem mvhLoop_bound (C : Int) (th : Nat) (ii : List ItemInfo) (rh : List Int)
    (hf : LayoutFacts C th ii rh) (hC1 : 1 ≤ C) (hC52 : C ≤ 52) :
    ∀ fuel a b ni acc,
      2 * ii.length + 1 ≤ fuel + a + b →
      a ≤ b → b ≤ ii.length →
      (a < ii.length → (infoAt ii a).column = 0) →
      ni = countNH ii a b → ni ≤ 52 →
      (∀ i j, i ≤ j → j < b → 53 ≤ countNH ii i (j + 1) →
        acc ≤ rhAt rh (infoAt ii j).row - rhAt rh (infoAt ii i).row) →
      (∀ i j, i < a → b ≤ j → j < ii.length →
        acc ≤ rhAt rh (infoAt ii j).row - rhAt rh (infoAt ii i).row) →
      ∀ i j, i ≤ j → j < ii.length → 53 ≤ countNH ii i (j + 1) →
        mvhLoop ii rh fuel a b ni acc ≤
          rhAt rh (infoAt ii j).row - rhAt rh (infoAt ii i).row := by
  intro fuel
  induction fuel with
  | zero =>
      intro a b ni acc hfuel hab hblen _ _ _ _ _ i j hij hjlen hcnt
      omega
  | succ fuel ih =>
      intro a b ni acc hfuel hab hblen hrs hni hni52 hK4 hK5 i j hij hjlen hcnt
      simp only [mvhLoop]
      by_cases hb : b < ii.length
      · rw [if_pos hb]
        by_cases hni51 : ni < 52
        · rw [if_pos hni51]
          refine ih a (b + 1) _ acc ?_ ?_ ?_ hrs ?_ ?_ ?_ ?_ i j hij hjlen hcnt
          · omega
          · omega
          · omega
          · rw [hni, countNH_succ ii a b hab]
          · have hb1 : (if (infoAt ii b).heading = true then 0 else 1) ≤ 1 := by
              split_ifs <;> omega
            omega
          · intro i' j' hij' hj' hcnt'
            by_cases hjb : j' < b
            · exact hK4 i' j' hij' hjb hcnt'
            · have hjb' : j' = b := by omega
              by_cases hia : i' < a
              · rw [hjb']
                exact hK5 i' b hia (le_refl b) hb
              · exfalso
                have hle : countNH ii i' (j' + 1) ≤ countNH ii a (b + 1) :=
                  countNH_mono ii a i' (j' + 1) (b + 1) (by omega) (by omega)
                have heqc : countNH ii a (b + 1) =
                    ni + (if (infoAt ii b).heading = true then 0 else 1) := by
                  rw [hni, countNH_succ ii a b hab]
                have hnb : (if (infoAt ii b).heading = true then 0 else 1) ≤ 1 := by
                  split_ifs <;> omega
                omega
          · intro i' j' hia hbj hjlen'
            exact hK5 i' j' hia (by omega) hjlen'
        · by_cases hni52eq : ni = 52
          · rw [if_neg hni51, if_pos hni52eq]
            have hablt : a < b := by
              by_contra hge
              have heq0 : a = b := by omega
              rw [heq0, countNH_self] at hni
              omega
            have hb52 : a + 52 ≤ b := by
              have := countNH_le ii a b
              omega
            have halen : a < ii.length := by omega
            have hca := hrs halen
            obtain ⟨nrs, hn1, hn2, hn3, hn4⟩ :=
              next_row_start C th ii rh hf hC1 a halen hca
            have hCn : C.toNat ≤ 52 := by omega
            have hnb : nrs ≤ b := by omega
            have hadv : mvhAdv ii (ii.length + 1) a ni = (nrs, ni - countNH ii a nrs) :=
              mvhAdv_spec ii (ii.length + 1) a ni nrs hn1 hn3 hn4 (by omega)
            rw [hadv]
            have hsplit := countNH_split ii a nrs b (by omega) hnb
            have hyb : rhAt rh (infoAt ii (b - 1)).row = (infoAt ii (b - 1)).y :=
              hf.yRow (b - 1) (by omega)
            have hya : rhAt rh (infoAt ii a).row = (infoAt ii a).y := hf.yRow a halen
            refine ih nrs b _ _ ?_ ?_ ?_ ?_ ?_ ?_ ?_ ?_ i j hij hjlen hcnt
            · omega
            · exact hnb
            · exact hblen
            · intro _
              exact hn3
            · show ni - countNH ii a nrs = countNH ii nrs b
              omega
            · show ni - countNH ii a nrs ≤ 52
              omega
            · intro i' j' hij' hj' hcnt'
              have hold := hK4 i' j' hij' hj' hcnt'
              have hmin := min_le_left acc (rhAt rh (infoAt ii b).row -
                rhAt rh (infoAt ii (b - 1)).row + (infoAt ii (b - 1)).y - (infoAt ii a).y)
              omega
            · intro i' j' hia hbj hjlen'
              by_cases hia' : i' < a
              · have hold := hK5 i' j' hia' hbj hjlen'
                have hmin := min_le_left acc (rhAt rh (infoAt ii b).row -
                  rhAt rh (infoAt ii (b - 1)).row + (infoAt ii (b - 1)).y - (infoAt ii a).y)
                omega
              · have hrowc : (infoAt ii i').row = (infoAt ii a).row := by
                  have hrc := row_const C th ii rh hf a nrs (by omega) hn4
                    (i' - a) (by omega)
                  have he : a + (i' - a) = i' := by omega
                  rw [he] at hrc
                  exact hrc
                have hmono : rhAt rh (infoAt ii b).row ≤ rhAt rh (infoAt ii j').row :=
                  facts_rowValMono C th ii rh hf b j' hbj hjlen'
                have hmin := min_le_right acc (rhAt rh (infoAt ii b).row -
                  rhAt rh (infoAt ii (b - 1)).row + (infoAt ii (b - 1)).y - (infoAt ii a).y)
                rw [hrowc]
                omega
          · rw [if_neg hni51, if_neg hni52eq]
            omega
      · rw [if_neg hb]
        exact hK4 i j hij (by omega) hcnt

theorem mvhLoop_intmax (ii : List ItemInfo) (rh : List Int)
    (h51 : countNH ii 0 (ii.length - 1) ≤ 51) :
    ∀ fuel b ni acc, ni = countNH ii 0 b → b ≤ ii.length →
      mvhLoop ii rh fuel 0 b ni acc = acc := by
  intro fuel
  induction fuel with
  | zero => intro b ni acc _ _; rfl
  | succ fuel ih =>
      intro b ni acc hni hble
      simp only [mvhLoop]
      by_cases hb : b < ii.length
      · rw [if_pos hb]
        have hmono : countNH ii 0 b ≤ countNH ii 0 (ii.length - 1) :=
          countNH_mono ii 0 0 b (ii.length - 1) (le_refl 0) (by omega)
        have hni51 : ni < 52 := by omega
        rw [if_pos hni51]
        exact ih (b + 1) _ acc (by rw [hni, countNH_succ ii 0 b (by omega)]) (by omega)
      · rw [if_neg hb]

/-- Full visibility of entry `k` at scroll position `scroll` with
viewport height `vph`: a non-heading entry whose row span lies inside
the viewport. -/
def fullVisP (ii : List ItemInfo) (rh : List Int) (scroll vph : Int) (k : Nat) : Prop :=
  (infoAt ii k).heading = false ∧ scroll ≤ rhAt rh (infoAt ii k).row ∧
    rhAt rh ((infoAt ii k).row + 1) ≤ scroll + vph

instance (ii : List ItemInfo) (rh : List Int) (scroll vph : Int) (k : Nat) :
    Decidable (fullVisP ii rh scroll vph k) := by
  unfold fullVisP
  infer_instance

def countPRange (p : Nat → Bool) (a b : Nat) : Nat :=
  ((List.range' a (b - a)).filter p).length

theorem countPRange_split (p : Nat → Bool) (a c b : Nat) (h1 : a ≤ c) (h2 : c ≤ b) :
    countPRange p a b = countPRange p a c + countPRange p c b := by
  unfold countPRange
  have hlen : b - a = b - c + (c - a) := by omega
  rw [hlen, ← List.range'_append a (c - a) (b - c) 1]
  have hc : a + 1 * (c - a) = c := by omega
  rw [hc, List.filter_append, List.length_append]

theorem countPRange_zero (p : Nat → Bool) (a b : Nat)
    (h : ∀ x, a ≤ x → x < b → ¬ p x = true) : countPRange p a b = 0 := by
  unfold countPRange
  rw [List.filter_eq_nil.mpr]
  · rfl
  · intro x hx
    rw [List.mem_range'_1] at hx
    exact h x hx.1 (by omega)

theorem countPRange_mono_pred (p q : Nat → Bool) (a b : Nat)
    (h : ∀ x, p x = true → q x = true) : countPRange p a b ≤ countPRange q a b := by
  unfold countPRange
  rw [← List.countP_eq_length_filter, ← List.countP_eq_length_filter]
  exact List.countP_mono_left (fun x _ => h x)

theorem countFullVis_eq (ii : List ItemInfo) (rh : List Int) (scroll vph : Int) :
    countFullVis ii rh scroll vph =
      countPRange (fun k => decide (fullVisP ii rh scroll vph k)) 0 ii.length := by
  unfold countFullVis countPRange
  rw [List.range_eq_range']
  rfl

theorem countNH_eq_countPRange (ii : List ItemInfo) (a b : Nat) :
    countNH ii a b =
      countPRange (fun k => decide ((infoAt ii k).heading = false)) a b := rfl

theorem fullVis_bound (C : Int) (th : Nat) (ii : List ItemInfo) (rh : List Int)
    (hf : LayoutFacts C th ii rh) (hC1 : 1 ≤ C) (hC52 : C ≤ 52) (hth : 1 ≤ th)
    (scroll vph : Int) (hvph : vph ≤ get_max_viewport_height ii rh) :
    countFullVis ii rh scroll vph ≤ 52 := by
  by_contra hgt
  push_neg at hgt
  classical
  have hex : ∃ k, k < ii.length ∧ fullVisP ii rh scroll vph k := by
    have hpos : 0 < countFullVis ii rh scroll vph := by omega
    unfold countFullVis at hpos
    rw [List.length_pos] at hpos
    obtain ⟨x, hx⟩ := List.exists_mem_of_ne_nil _ hpos
    rw [List.mem_filter] at hx
    obtain ⟨hx1, hx2⟩ := hx
    rw [List.mem_range] at hx1
    rw [decide_eq_true_eq] at hx2
    exact ⟨x, hx1, hx2⟩
  obtain ⟨w, hw1, hw2⟩ := hex
  have hexP : ∃ k, k < ii.length ∧ fullVisP ii rh scroll vph k := ⟨w, hw1, hw2⟩
  have hilen : Nat.find hexP < ii.length := (Nat.find_spec hexP).1
  have hiP : fullVisP ii rh scroll vph (Nat.find hexP) := (Nat.find_spec hexP).2
  have hwle : w ≤ ii.length - 1 := by omega
  have hgspec := Nat.findGreatest_spec (P := fun k => k < ii.length ∧
      fullVisP ii rh scroll vph k) hwle ⟨hw1, hw2⟩
  have hjlen : Nat.findGreatest (fun k => k < ii.length ∧ fullVisP ii rh scroll vph k)
      (ii.length - 1) < ii.length := hgspec.1
  have hjP : fullVisP ii rh scroll vph
      (Nat.findGreatest (fun k => k < ii.length ∧ fullVisP ii rh scroll vph k)
        (ii.length - 1)) := hgspec.2
  have hiw : Nat.find hexP ≤ w := Nat.find_min' hexP ⟨hw1, hw2⟩
  have hwj : w ≤ Nat.findGreatest (fun k => k < ii.length ∧ fullVisP ii rh scroll vph k)
      (ii.length - 1) := Nat.le_findGreatest hwle ⟨hw1, hw2⟩
  have hcount : countFullVis ii rh scroll vph ≤ countNH ii (Nat.find hexP)
      (Nat.findGreatest (fun k => k < ii.length ∧ fullVisP ii rh scroll vph k)
        (ii.length - 1) + 1) := by
    rw [countFullVis_eq]
    rw [countPRange_split (fun k => decide (fullVisP ii rh scroll vph k)) 0
      (Nat.find hexP) ii.length (by omega) (by omega)]
    rw [countPRange_split (fun k => decide (fullVisP ii rh scroll vph k)) (Nat.find hexP)
      (Nat.findGreatest (fun k => k < ii.length ∧ fullVisP ii rh scroll vph k)
        (ii.length - 1) + 1) ii.length (by omega) (by omega)]
    have z1 : countPRange (fun k => decide (fullVisP ii rh scroll vph k)) 0
        (Nat.find hexP) = 0 := by
      apply countPRange_zero
      intro x _ hx2 hpx
      rw [decide_eq_true_eq] at hpx
      exact Nat.find_min hexP hx2 ⟨by omega, hpx⟩
    have z2 : countPRange (fun k => decide (fullVisP ii rh scroll vph k))
        (Nat.findGreatest (fun k => k < ii.length ∧ fullVisP ii rh scroll vph k)
          (ii.length - 1) + 1) ii.length = 0 := by
      apply countPRange_zero
      intro x hx1 hx2 hpx
      rw [decide_eq_true_eq] at hpx
      exact Nat.findGreatest_is_greatest
        (P := fun k => k < ii.length ∧ fullVisP ii rh scroll vph k)
        (n := ii.length - 1) (by omega) (by omega) ⟨hx2, hpx⟩
    have hm : countPRange (fun k => decide (fullVisP ii rh scroll vph k)) (Nat.find hexP)
        (Nat.findGreatest (fun k => k < ii.length ∧ fullVisP ii rh scroll vph k)
          (ii.length - 1) + 1) ≤ countNH ii (Nat.find hexP)
        (Nat.findGreatest (fun k => k < ii.length ∧ fullVisP ii rh scroll vph k)
          (ii.length - 1) + 1) := by
      rw [countNH_eq_countPRange]
      apply countPRange_mono_pred
      intro x hx
      rw [decide_eq_true_eq] at hx ⊢
      exact hx.1
    omega
  have hv : get_max_viewport_height ii rh =
      mvhLoop ii rh (2 * ii.length + 2) 0 0 0 INT_MAX := rfl
  have hbound := mvhLoop_bound C th ii rh hf hC1 hC52 (2 * ii.length + 2) 0 0 0 INT_MAX
    (by omega) (by omega) (by omega) (fun h => hf.col0 h) (countNH_self ii 0).symm
    (by omega)
    (fun i' j' _ hj' _ => absurd hj' (Nat.not_lt_zero j'))
    (fun i' j' hi' _ _ => absurd hi' (Nat.not_lt_zero i'))
    (Nat.find hexP)
    (Nat.findGreatest (fun k => k < ii.length ∧ fullVisP ii rh scroll vph k)
      (ii.length - 1))
    (by omega) hjlen (by omega)
  rw [hv] at hvph
  have hgap := facts_rowGap C th ii rh hf
    (Nat.findGreatest (fun k => k < ii.length ∧ fullVisP ii rh scroll vph k)
      (ii.length - 1)) hjlen
  obtain ⟨_, hi2, _⟩ := hiP
  obtain ⟨_, _, hj3⟩ := hjP
  omega

/-- C3 (amended): under 1 <= num_columns <= 52 and a positive font height,
(a) at any viewport height up to get_max_viewport_height's result, no
scroll position makes more than 52 non-heading (Item-carrying) entries
FULLY visible (row span inside the viewport); (b) when fewer than 52
non-heading entries strictly precede the final entry, the function
returns INT_MAX (unbounded).  The original claim's "no scroll position
can make more than 52 visible" fails for partial visibility (see the
counterexample), and its "INT_MAX when no window ever exceeds 52" fails
for a trailing heading. -/
theorem get_max_viewport_height_page_cap (p : LayoutParams) (entries : List LEntry)
    (hC1 : 1 ≤ p.num_columns) (hC52 : p.num_columns ≤ 52) (hth : 1 ≤ p.textHeight) :
    pageCap p entries := by
  constructor
  · intro scroll vph hvph
    by_cases hne : (do_layout p entries).item_info = []
    · unfold countFullVis
      rw [hne]
      simp
    · have hinv : LoopInv p.num_columns p.textHeight
          (layoutLoop p 0 entries ⟨-1, 0, 0, 0, [], [], 0⟩) :=
        layoutLoop_inv p hC1 entries 0 _ (loopInv_init p.num_columns p.textHeight hC1)
      have hf := layoutFacts_of_inv p.num_columns p.textHeight _ hinv hne
      exact fullVis_bound p.num_columns p.textHeight
        (do_layout p entries).item_info (do_layout p entries).row_heights
        hf hC1 hC52 hth scroll vph hvph
  · intro h51
    exact mvhLoop_intmax (do_layout p entries).item_info (do_layout p entries).row_heights
      h51 (2 * (do_layout p entries).item_info.length + 2) 0 0 INT_MAX
      (countNH_self _ 0).symm (Nat.zero_le _)

def pC3 : LayoutParams := ⟨800, 1, 0, 10, false, false⟩

def itemE : LEntry := ⟨false, 10, false, false, 0, fun _ => 0, fun _ => 0⟩

def headE : LEntry := ⟨true, 10, false, false, 0, fun _ => 0, fun _ => 0⟩

def eC3a : List LEntry := List.replicate 53 itemE

def eC3b : List LEntry := List.replicate 52 itemE ++ [headE]

def iiA : List ItemInfo := (do_layout pC3 eC3a).item_info

def rhA : List Int := (do_layout pC3 eC3a).row_heights

def vA : Int := get_max_viewport_height iiA rhA

def scrollA : Int := rhAt rhA 1 - 1

def rangeA : Nat × Nat := is_visible_item_range iiA rhA iiA.length vA scrollA

def iiB : List ItemInfo := (do_layout pC3 eC3b).item_info

def rhB : List Int := (do_layout pC3 eC3b).row_heights

set_option maxRecDepth 100000 in
/-- C3 claim counterexample.  Scenario A: 53 single-column items; at the
returned height vA = 728 the in-range scroll 13 (one pixel above the
first row's bottom) makes is_visible_item_range report the index window
[0, 53), i.e. 53 non-heading entries simultaneously visible, refuting
"no scroll position can make more than 52 visible".  Scenario B: 52
items followed by a heading; only 52 non-heading entries exist in the
whole list (so no set of simultaneously visible entries can ever exceed
52), yet the function returns 728, not INT_MAX, refuting the
"unbounded when no window exceeds 52" half. -/
theorem max_viewport_height_claim_counterexample :
    (0 ≤ scrollA ∧ scrollA + vA ≤ (do_layout pC3 eC3a).m_height ∧
     countNH iiA rangeA.1 rangeA.2 = 53) ∧
    (countNH iiB 0 iiB.length = 52 ∧
     get_max_viewport_height iiB rhB ≠ INT_MAX) := by
  decide

theorem get_max_viewport_height_page_cap_witness : pageCap pW eW :=
  get_max_viewport_height_page_cap pW eW (by decide) (by decide) (by decide)
